import Mathlib

/-!
Verification of the replicated-data (CRDT) library, the context-failure
constructor and the discovery error reporter of the akkaserverless
JavaScript SDK.

Shallow embedding conventions:
* A JavaScript `Map` (insertion-ordered, keys compared by `===` on the
  comparable form produced by `AnySupport.toComparable`) is modelled as an
  association list `List (String × V)`: `Map.set` replaces in place or
  appends, `Map.delete` filters, iteration is list order.
* Comparable keys and serialized forms coincide in the model: the spec
  guarantees `toComparable` is stable and serialization is lossless, so a
  key is represented by the `String` it serializes to.  Set elements are
  likewise `String`s.
* JavaScript `Long` counter values are modelled as `Int` (no claim in
  scope depends on 64-bit wrap-around).
* `getAndResetDelta` mutates the receiver, so it is modelled as a function
  returning the optional delta together with the successor state.
-/

/-- `Map.set` of a JavaScript `Map`: replace in place when the key exists,
otherwise append at the end. -/
def jsMapSet {V : Type} (l : List (String × V)) (k : String) (v : V) :
    List (String × V) :=
  if l.any (fun p => p.1 == k) then
    l.map (fun p => if p.1 == k then (k, v) else p)
  else l ++ [(k, v)]

/-- `Map.get` of a JavaScript `Map`. -/
def jsMapGet {V : Type} (l : List (String × V)) (k : String) : Option V :=
  (l.find? (fun p => p.1 == k)).map (fun p => p.2)

/-- `Map.has` of a JavaScript `Map`. -/
def jsMapHas {V : Type} (l : List (String × V)) (k : String) : Bool :=
  l.any (fun p => p.1 == k)

/-- `Map.delete` of a JavaScript `Map`. -/
def jsMapDelete {V : Type} (l : List (String × V)) (k : String) :
    List (String × V) :=
  l.filter (fun p => p.1 != k)

/-- Update the value stored at a key in place (the JS idiom of mutating the
object obtained from `Map.get`). -/
def jsMapUpdate {V : Type} (l : List (String × V)) (k : String) (f : V → V) :
    List (String × V) :=
  l.map (fun p => if p.1 == k then (p.1, f p.2) else p)

/-- A JS `Map` used as an insertion-ordered set of keys (the bookkeeping maps
`delta.added`, `delta.removed`, `this.removed` all map a comparable key to a
serialized form determined by the key, so only the key list is relevant). -/
def jsSetAdd (l : List String) (k : String) : List String :=
  if l.contains k then l else l ++ [k]

/-- `Map.delete` on a key-set. -/
def jsSetDel (l : List String) (k : String) : List String :=
  l.filter (fun e => e != k)

/-- Wire form of a counter delta (`ReplicatedCounterDelta.change`). -/
structure CounterDelta where
  change : Int
deriving DecidableEq

/-- Modelled from the spec: `ReplicatedCounter` (its source `counter.ts` is
not part of the repository snapshot; §3 gives "signed 64-bit value; delta =
signed 64-bit increment since last flush", §4.2 gives the
`getAndResetDelta` / `applyDelta` contract with null returned when there
are no changes). -/
structure ReplicatedCounter where
  value : Int
  delta : Int
deriving DecidableEq

def ReplicatedCounter.empty : ReplicatedCounter := ⟨0, 0⟩

def ReplicatedCounter.increment (c : ReplicatedCounter) (n : Int) :
    ReplicatedCounter :=
  ⟨c.value + n, c.delta + n⟩

def ReplicatedCounter.decrement (c : ReplicatedCounter) (n : Int) :
    ReplicatedCounter :=
  c.increment (-n)

def ReplicatedCounter.getAndResetDelta (c : ReplicatedCounter)
    (initial : Bool) : Option CounterDelta × ReplicatedCounter :=
  if c.delta ≠ 0 ∨ initial = true then (some ⟨c.delta⟩, ⟨c.value, 0⟩)
  else (none, c)

def ReplicatedCounter.applyDelta (c : ReplicatedCounter) (d : CounterDelta) :
    ReplicatedCounter :=
  ⟨c.value + d.change, c.delta⟩

/-- Wire form of `ReplicatedSetDelta` as built by `set.js`. -/
structure SetDelta where
  cleared : Bool
  removed : List String
  added : List String
deriving DecidableEq

/-- State of `ReplicatedSet` (`set.js`): the element map and the delta
bookkeeping `{ added, removed, cleared }`. -/
structure ReplicatedSet where
  currentValue : List String
  deltaAdded : List String
  deltaRemoved : List String
  deltaCleared : Bool
deriving DecidableEq

def ReplicatedSet.empty : ReplicatedSet := ⟨[], [], [], false⟩

def ReplicatedSet.hasElem (s : ReplicatedSet) (e : String) : Bool :=
  s.currentValue.contains e

def ReplicatedSet.size (s : ReplicatedSet) : Nat :=
  s.currentValue.length

/-- `ReplicatedSet#clear` (`set.js` lines 159-167). -/
def ReplicatedSet.clear (s : ReplicatedSet) : ReplicatedSet :=
  if s.currentValue.length > 0 then ⟨[], [], [], true⟩ else s

/-- `ReplicatedSet#add` (`set.js` lines 100-112). -/
def ReplicatedSet.add (s : ReplicatedSet) (e : String) : ReplicatedSet :=
  if s.currentValue.contains e then s
  else if s.deltaRemoved.contains e then
    { s with currentValue := s.currentValue ++ [e],
             deltaRemoved := jsSetDel s.deltaRemoved e }
  else
    { s with currentValue := s.currentValue ++ [e],
             deltaAdded := jsSetAdd s.deltaAdded e }

/-- `ReplicatedSet#delete` (`set.js` lines 135-151): deleting the last
element collapses to `clear`. -/
def ReplicatedSet.delete (s : ReplicatedSet) (e : String) : ReplicatedSet :=
  if s.currentValue.contains e then
    if s.currentValue.length = 1 then s.clear
    else if s.deltaAdded.contains e then
      { s with currentValue := s.currentValue.filter (fun x => x != e),
               deltaAdded := jsSetDel s.deltaAdded e }
    else
      { s with currentValue := s.currentValue.filter (fun x => x != e),
               deltaRemoved := jsSetAdd s.deltaRemoved e }
  else s

/-- `ReplicatedSet#getAndResetDelta` (`set.js` lines 169-190). -/
def ReplicatedSet.getAndResetDelta (s : ReplicatedSet) (initial : Bool) :
    Option SetDelta × ReplicatedSet :=
  if s.deltaCleared = true ∨ s.deltaAdded ≠ [] ∨ s.deltaRemoved ≠ [] ∨
      initial = true then
    (some ⟨s.deltaCleared, s.deltaRemoved, s.deltaAdded⟩,
     ⟨s.currentValue, [], [], false⟩)
  else (none, s)

/-- `ReplicatedSet#applyDelta` (`set.js` lines 192-229): clear, then remove
(ignoring absent elements), then add (ignoring present elements); the local
delta bookkeeping is untouched. -/
def ReplicatedSet.applyDelta (s : ReplicatedSet) (d : SetDelta) :
    ReplicatedSet :=
  let cv0 := if d.cleared then [] else s.currentValue
  let cv1 := d.removed.foldl (fun cv e => cv.filter (fun x => x != e)) cv0
  let cv2 := d.added.foldl
    (fun cv e => if cv.contains e then cv else cv ++ [e]) cv1
  { s with currentValue := cv2 }

/-- Wire form of `ReplicatedCounterMapDelta` as built by `counter-map.ts`. -/
structure CounterMapDelta where
  cleared : Bool
  removed : List String
  updated : List (String × CounterDelta)
deriving DecidableEq

/-- State of `ReplicatedCounterMap` (`counter-map.ts`). -/
structure ReplicatedCounterMap where
  counters : List (String × ReplicatedCounter)
  removed : List String
  cleared : Bool
deriving DecidableEq

def ReplicatedCounterMap.empty : ReplicatedCounterMap := ⟨[], [], false⟩

def ReplicatedCounterMap.get (m : ReplicatedCounterMap) (k : String) :
    Option Int :=
  (jsMapGet m.counters k).map (fun c => c.value)

def ReplicatedCounterMap.has (m : ReplicatedCounterMap) (k : String) : Bool :=
  jsMapHas m.counters k

def ReplicatedCounterMap.size (m : ReplicatedCounterMap) : Nat :=
  m.counters.length

/-- `ReplicatedCounterMap#increment` (`counter-map.ts` lines 81-87) via
`getOrCreateCounter`. -/
def ReplicatedCounterMap.increment (m : ReplicatedCounterMap) (k : String)
    (n : Int) : ReplicatedCounterMap :=
  if jsMapHas m.counters k then
    { m with counters := jsMapUpdate m.counters k (fun c => c.increment n) }
  else
    { m with counters := m.counters ++ [(k, ReplicatedCounter.empty.increment n)] }

/-- `ReplicatedCounterMap#decrement` (`counter-map.ts` lines 96-102). -/
def ReplicatedCounterMap.decrement (m : ReplicatedCounterMap) (k : String)
    (n : Int) : ReplicatedCounterMap :=
  m.increment k (-n)

/-- `ReplicatedCounterMap#delete` (`counter-map.ts` lines 135-142). -/
def ReplicatedCounterMap.delete (m : ReplicatedCounterMap) (k : String) :
    ReplicatedCounterMap :=
  if jsMapHas m.counters k then
    { m with counters := jsMapDelete m.counters k,
             removed := jsSetAdd m.removed k }
  else m

/-- `ReplicatedCounterMap#clear` (`counter-map.ts` lines 149-156). -/
def ReplicatedCounterMap.clear (m : ReplicatedCounterMap) :
    ReplicatedCounterMap :=
  if m.counters.length > 0 then ⟨[], [], true⟩ else m

/-- `ReplicatedCounterMap#getAndResetDelta` (`counter-map.ts` lines 171-203).
Note the nested counters are flushed with `counter.getAndResetDelta()` —
without propagating `initial`. -/
def ReplicatedCounterMap.getAndResetDelta (m : ReplicatedCounterMap)
    (initial : Bool) : Option CounterMapDelta × ReplicatedCounterMap :=
  let updated := m.counters.filterMap
    (fun p => ((p.2.getAndResetDelta false).1).map (fun d => (p.1, d)))
  if m.cleared = true ∨ m.removed ≠ [] ∨ updated ≠ [] ∨ initial = true then
    (some ⟨m.cleared, m.removed, updated⟩,
     ⟨m.counters.map (fun p => (p.1, (p.2.getAndResetDelta false).2)),
      [], false⟩)
  else (none, m)

/-- `ReplicatedCounterMap#applyDelta` (`counter-map.ts` lines 206-232). -/
def ReplicatedCounterMap.applyDelta (m : ReplicatedCounterMap)
    (d : CounterMapDelta) : ReplicatedCounterMap :=
  let cs0 := if d.cleared then [] else m.counters
  let cs1 := d.removed.foldl (fun cs k => jsMapDelete cs k) cs0
  let cs2 := d.updated.foldl
    (fun cs kd =>
      if jsMapHas cs kd.1 then
        jsMapUpdate cs kd.1 (fun c => c.applyDelta kd.2)
      else cs ++ [(kd.1, ReplicatedCounter.empty.applyDelta kd.2)]) cs1
  { m with counters := cs2 }

/-- User mutations of a `ReplicatedCounterMap`. -/
inductive CounterMapMutation where
  | increment (k : String) (n : Int)
  | decrement (k : String) (n : Int)
  | delete (k : String)
  | clear
deriving DecidableEq

def ReplicatedCounterMap.applyMutation (m : ReplicatedCounterMap) :
    CounterMapMutation → ReplicatedCounterMap
  | .increment k n => m.increment k n
  | .decrement k n => m.decrement k n
  | .delete k => m.delete k
  | .clear => m.clear

/-- The counter map obtained by a sequence of user mutations from a fresh
instance. -/
def ReplicatedCounterMap.applyMutations (ms : List CounterMapMutation) :
    ReplicatedCounterMap :=
  ms.foldl ReplicatedCounterMap.applyMutation ReplicatedCounterMap.empty

/-- Wire form of `ReplicatedMapDelta` as built by `map.js` — added and
updated entries carry a sub-delta of the nested value; the nested values
are instantiated at `ReplicatedCounter` in this development. -/
structure MapDelta where
  cleared : Bool
  removed : List String
  added : List (String × CounterDelta)
  updated : List (String × CounterDelta)
deriving DecidableEq

/-- State of `ReplicatedMap` (`map.js`), instantiated with
`ReplicatedCounter` values: the entry map and the delta bookkeeping
`{ added, removed, cleared }`. -/
structure ReplicatedMap where
  currentValue : List (String × ReplicatedCounter)
  deltaAdded : List String
  deltaRemoved : List String
  deltaCleared : Bool
deriving DecidableEq

def ReplicatedMap.empty : ReplicatedMap := ⟨[], [], [], false⟩

def ReplicatedMap.get (m : ReplicatedMap) (k : String) :
    Option ReplicatedCounter :=
  jsMapGet m.currentValue k

def ReplicatedMap.has (m : ReplicatedMap) (k : String) : Bool :=
  jsMapHas m.currentValue k

def ReplicatedMap.size (m : ReplicatedMap) : Nat :=
  m.currentValue.length

/-- `ReplicatedMap#set` (`map.js` lines 220-253): a key that is present but
not pending in `delta.added` is recorded in `delta.removed` before the new
value is installed; the key always joins `delta.added`. -/
def ReplicatedMap.set (m : ReplicatedMap) (k : String) (v : ReplicatedCounter) :
    ReplicatedMap :=
  let m1 :=
    if jsMapHas m.currentValue k then
      if m.deltaAdded.contains k then m
      else { m with deltaRemoved := jsSetAdd m.deltaRemoved k }
    else m
  { m1 with deltaAdded := jsSetAdd m1.deltaAdded k,
            currentValue := jsMapSet m1.currentValue k v }

/-- `ReplicatedMap#delete` (`map.js` lines 262-274). -/
def ReplicatedMap.delete (m : ReplicatedMap) (k : String) : ReplicatedMap :=
  if jsMapHas m.currentValue k then
    if m.deltaAdded.contains k then
      { m with currentValue := jsMapDelete m.currentValue k,
               deltaAdded := jsSetDel m.deltaAdded k }
    else
      { m with currentValue := jsMapDelete m.currentValue k,
               deltaRemoved := jsSetAdd m.deltaRemoved k }
  else m

/-- `ReplicatedMap#clear` (`map.js` lines 282-290). -/
def ReplicatedMap.clear (m : ReplicatedMap) : ReplicatedMap :=
  if m.currentValue.length > 0 then ⟨[], [], [], true⟩ else m

/-- `ReplicatedMap#getAndResetDelta` (`map.js` lines 292-334): entries whose
key is pending in `delta.added` are emitted as added entries with the
nested `getAndResetDelta(true)`, others as updated entries when the nested
flush is non-null. -/
def ReplicatedMap.getAndResetDelta (m : ReplicatedMap) (initial : Bool) :
    Option MapDelta × ReplicatedMap :=
  let addedDeltas := m.currentValue.filterMap
    (fun p => (if m.deltaAdded.contains p.1
      then some (CounterDelta.mk p.2.delta) else none).map (fun d => (p.1, d)))
  let updateDeltas := m.currentValue.filterMap
    (fun p => (if m.deltaAdded.contains p.1 then none
      else (p.2.getAndResetDelta false).1).map (fun d => (p.1, d)))
  if m.deltaCleared = true ∨ m.deltaRemoved ≠ [] ∨ updateDeltas ≠ [] ∨
      addedDeltas ≠ [] ∨ initial = true then
    (some ⟨m.deltaCleared, m.deltaRemoved, addedDeltas, updateDeltas⟩,
     ⟨m.currentValue.map (fun p => (p.1, ⟨p.2.value, 0⟩)), [], [], false⟩)
  else (none, m)

/-- `ReplicatedMap#applyDelta` (`map.js` lines 336-397): clear, remove keys
(ignoring absent ones), fold added entries (constructing a fresh nested
value via `createForDelta` when the key is absent, updating in place when
present), fold updated entries (ignoring absent keys). -/
def ReplicatedMap.applyDelta (m : ReplicatedMap) (d : MapDelta) :
    ReplicatedMap :=
  let cv0 := if d.cleared then [] else m.currentValue
  let cv1 := d.removed.foldl (fun cv k => jsMapDelete cv k) cv0
  let cv2 := d.added.foldl
    (fun cv kd =>
      if jsMapHas cv kd.1 then
        jsMapUpdate cv kd.1 (fun c => c.applyDelta kd.2)
      else cv ++ [(kd.1, ReplicatedCounter.empty.applyDelta kd.2)]) cv1
  let cv3 := d.updated.foldl
    (fun cv kd =>
      if jsMapHas cv kd.1 then
        jsMapUpdate cv kd.1 (fun c => c.applyDelta kd.2)
      else cv) cv2
  { m with currentValue := cv3 }

/-- In-place mutation of the nested counter at a key, modelling user code
calling `increment`/`decrement` on the value returned by
`ReplicatedMap#get` (`map.js` lines 151-162); a missing key is a no-op
because `get` returns undefined. -/
def ReplicatedMap.incrementAt (m : ReplicatedMap) (k : String) (n : Int) :
    ReplicatedMap :=
  { m with currentValue :=
      jsMapUpdate m.currentValue k (fun c => c.increment n) }

/-- User mutations of a `ReplicatedMap`: `set` installs a freshly
constructed nested counter carrying net change `n` (a user-built counter
is never flushed, so its value equals its pending delta), `increment`
mutates the nested counter obtained from `get` in place. -/
inductive MapMutation where
  | set (k : String) (n : Int)
  | increment (k : String) (n : Int)
  | delete (k : String)
  | clear
deriving DecidableEq

def ReplicatedMap.applyMutation (m : ReplicatedMap) :
    MapMutation → ReplicatedMap
  | .set k n => m.set k ⟨n, n⟩
  | .increment k n => m.incrementAt k n
  | .delete k => m.delete k
  | .clear => m.clear

/-- The map obtained by a sequence of user mutations from a fresh
instance. -/
def ReplicatedMap.applyMutations (ms : List MapMutation) : ReplicatedMap :=
  ms.foldl ReplicatedMap.applyMutation ReplicatedMap.empty

/-- Wire form of `ReplicatedMultiMapDelta` as built by `multi-map.ts`. -/
structure MultiMapDelta where
  cleared : Bool
  removed : List String
  updated : List (String × SetDelta)
deriving DecidableEq

/-- State of `ReplicatedMultiMap` (`multi-map.ts`). -/
structure ReplicatedMultiMap where
  entries : List (String × ReplicatedSet)
  removed : List String
  cleared : Bool
deriving DecidableEq

def ReplicatedMultiMap.empty : ReplicatedMultiMap := ⟨[], [], false⟩

/-- `ReplicatedMultiMap#get` (`multi-map.ts` lines 47-50): the current
values at the key, or the empty set. -/
def ReplicatedMultiMap.get (m : ReplicatedMultiMap) (k : String) :
    List String :=
  ((jsMapGet m.entries k).map (fun s => s.currentValue)).getD []

def ReplicatedMultiMap.has (m : ReplicatedMultiMap) (k : String) : Bool :=
  jsMapHas m.entries k

def ReplicatedMultiMap.keysSize (m : ReplicatedMultiMap) : Nat :=
  m.entries.length

def ReplicatedMultiMap.sizeTotal (m : ReplicatedMultiMap) : Nat :=
  (m.entries.map (fun p => p.2.currentValue.length)).sum

/-- `ReplicatedMultiMap#put` via `getOrCreateValues` (`multi-map.ts` lines
52-55, 118-128). -/
def ReplicatedMultiMap.put (m : ReplicatedMultiMap) (k v : String) :
    ReplicatedMultiMap :=
  if jsMapHas m.entries k then
    { m with entries := jsMapUpdate m.entries k (fun s => s.add v) }
  else
    { m with entries := m.entries ++ [(k, ReplicatedSet.empty.add v)] }

/-- `ReplicatedMultiMap#putAll` (`multi-map.ts` lines 57-63): note
`getOrCreateValues` runs before any value is added, so an empty collection
still creates the entry. -/
def ReplicatedMultiMap.putAll (m : ReplicatedMultiMap) (k : String)
    (vs : List String) : ReplicatedMultiMap :=
  if jsMapHas m.entries k then
    let f := fun s => vs.foldl ReplicatedSet.add s
    { m with entries := jsMapUpdate m.entries k f }
  else
    { m with entries :=
        m.entries ++ [(k, vs.foldl ReplicatedSet.add ReplicatedSet.empty)] }

/-- `ReplicatedMultiMap#deleteAll` (`multi-map.ts` lines 75-82). -/
def ReplicatedMultiMap.deleteAll (m : ReplicatedMultiMap) (k : String) :
    ReplicatedMultiMap :=
  if jsMapHas m.entries k then
    { m with entries := jsMapDelete m.entries k,
             removed := jsSetAdd m.removed k }
  else m

/-- `ReplicatedMultiMap#delete` (`multi-map.ts` lines 65-73): removes the
value from the entry's set and drops the whole entry when the set becomes
empty. -/
def ReplicatedMultiMap.delete (m : ReplicatedMultiMap) (k v : String) :
    ReplicatedMultiMap :=
  match jsMapGet m.entries k with
  | none => m
  | some s =>
    let s1 := s.delete v
    let m1 := { m with entries := jsMapUpdate m.entries k (fun _ => s1) }
    if s1.currentValue.length = 0 then m1.deleteAll k else m1

/-- `ReplicatedMultiMap#clear` (`multi-map.ts` lines 109-116). -/
def ReplicatedMultiMap.clear (m : ReplicatedMultiMap) : ReplicatedMultiMap :=
  if m.entries.length > 0 then ⟨[], [], true⟩ else m

/-- `ReplicatedMultiMap#getAndResetDelta` (`multi-map.ts` lines 130-162). -/
def ReplicatedMultiMap.getAndResetDelta (m : ReplicatedMultiMap)
    (initial : Bool) : Option MultiMapDelta × ReplicatedMultiMap :=
  let updated := m.entries.filterMap
    (fun p => ((p.2.getAndResetDelta false).1).map (fun d => (p.1, d)))
  if m.cleared = true ∨ m.removed ≠ [] ∨ updated ≠ [] ∨ initial = true then
    (some ⟨m.cleared, m.removed, updated⟩,
     ⟨m.entries.map (fun p => (p.1, (p.2.getAndResetDelta false).2)),
      [], false⟩)
  else (none, m)

/-- `ReplicatedMultiMap#applyDelta` (`multi-map.ts` lines 164-193). -/
def ReplicatedMultiMap.applyDelta (m : ReplicatedMultiMap)
    (d : MultiMapDelta) : ReplicatedMultiMap :=
  let es0 := if d.cleared then [] else m.entries
  let es1 := d.removed.foldl (fun es k => jsMapDelete es k) es0
  let es2 := d.updated.foldl
    (fun es kd =>
      if jsMapHas es kd.1 then
        jsMapUpdate es kd.1 (fun s => s.applyDelta kd.2)
      else es ++ [(kd.1, ReplicatedSet.empty.applyDelta kd.2)]) es1
  { m with entries := es2 }

/-- User mutations of a `ReplicatedMultiMap`. -/
inductive MultiMapMutation where
  | put (k v : String)
  | putAll (k : String) (vs : List String)
  | delete (k v : String)
  | deleteAll (k : String)
  | clear
deriving DecidableEq

def ReplicatedMultiMap.applyMutation (m : ReplicatedMultiMap) :
    MultiMapMutation → ReplicatedMultiMap
  | .put k v => m.put k v
  | .putAll k vs => m.putAll k vs
  | .delete k v => m.delete k v
  | .deleteAll k => m.deleteAll k
  | .clear => m.clear

def ReplicatedMultiMap.applyMutations (ms : List MultiMapMutation) :
    ReplicatedMultiMap :=
  ms.foldl ReplicatedMultiMap.applyMutation ReplicatedMultiMap.empty

/-- A mutation sequence where every `putAll` supplies at least one value. -/
def MultiMapMutation.nonEmptyPuts : MultiMapMutation → Prop
  | .putAll _ vs => vs ≠ []
  | _ => True

instance : DecidablePred MultiMapMutation.nonEmptyPuts := by
  intro mu
  cases mu <;> simp [MultiMapMutation.nonEmptyPuts] <;> infer_instance

/-- State of a `ContextFailure` (`context-failure.ts`). -/
structure ContextFailure where
  msg : String
  grpcStatus : Option Int
deriving DecidableEq

/-- `ContextFailure` constructor (`context-failure.ts` lines 22-37): throws
on status 0 (OK) and on codes below 0 or above 16. -/
def mkContextFailure (msg : String) (grpcStatus : Option Int) :
    Except String ContextFailure :=
  match grpcStatus with
  | none => .ok ⟨msg, none⟩
  | some c =>
    if c = 0 then .error "gRPC failure status code must not be OK"
    else if c < 0 ∨ c > 16 then .error "Invalid gRPC status code"
    else .ok ⟨msg, some c⟩

def exceptOk {ε α : Type} : Except ε α → Bool
  | .ok _ => true
  | .error _ => false

/-- A source location of a reported user-function error (protocol shape,
zero-based line and column). -/
structure SourceLocation where
  fileName : String
  startLine : Nat
  startCol : Nat
  endLine : Nat
  endCol : Nat
deriving DecidableEq

/-- Modelled from the spec: the error-code → documentation-link table of
the discovery handler (§6; the implementation is not part of the
repository snapshot, only its tests are). Keys are code prefixes. -/
def docLinkTable : List (String × String) :=
  [("KLX-001", "https://docs.kalix.io/javascript/views.html")]

/-- Modelled from the spec: fragment identifiers selected by a full error
code (§6: "a full code may append a fragment identifier"). -/
def docFragmentTable : List (String × String) :=
  [("KLX-00112", "changing")]

/-- Kernel-reducible test that `s` starts with `pre`. -/
def strStarts (s pre : String) : Bool :=
  pre.data.isPrefixOf s.data

/-- Modelled from the spec: `docLinkFor` of the discovery handler (§6): a
deterministic table keyed by the code prefix; a full code may append a
fragment; an unknown code yields the empty string. -/
def docLinkFor (code : String) : String :=
  match docLinkTable.find? (fun q => strStarts code q.1) with
  | none => ""
  | some q =>
    match docFragmentTable.find? (fun p => p.1 == code) with
    | some p => q.2 ++ "#" ++ p.2
    | none => q.2

/-- Modelled from the spec: `formatSource` of the discovery handler (§8
scenario 3 and the in-repository tests): renders
`At file:line:col:` with line and column one greater than the source
location values, followed by the referenced lines of the file. -/
def formatSource (loc : SourceLocation) (fileLines : List String) : String :=
  let quoted := (fileLines.drop loc.startLine).take
    (loc.endLine - loc.startLine + 1)
  "At " ++ loc.fileName ++ ":" ++ toString (loc.startLine + 1) ++ ":" ++
    toString (loc.startCol + 1) ++ ":\n" ++ String.intercalate "\n" quoted

/-- Modelled from the spec: `reportErrorLogic` of the discovery handler
(§8 scenario 3, matching the in-repository test expectations): header
`Error reported from <System>: <code> <message>`, blank line, detail, the
documentation link, blank line, source excerpt. -/
def reportErrorLogic (system code message detail : String)
    (loc : SourceLocation) (fileLines : List String) : String :=
  "Error reported from " ++ system ++ ": " ++ code ++ " " ++ message ++
    "\n\n" ++ detail ++ "\nSee documentation: " ++ docLinkFor code ++
    "\n\n" ++ formatSource loc fileLines

/-! ### Helper lemmas about the JavaScript `Map` model -/

lemma contains_iff (l : List String) (a : String) :
    l.contains a = true ↔ a ∈ l :=
  List.elem_iff

lemma contains_false_iff (l : List String) (a : String) :
    l.contains a = false ↔ a ∉ l := by
  rw [Bool.eq_false_iff]
  exact not_congr (contains_iff l a)

lemma jsMapHas_iff {V : Type} (l : List (String × V)) (k : String) :
    jsMapHas l k = true ↔ k ∈ l.map Prod.fst := by
  simp [jsMapHas, List.any_eq_true, List.mem_map, beq_iff_eq]

lemma jsMapHas_false_iff {V : Type} (l : List (String × V)) (k : String) :
    jsMapHas l k = false ↔ k ∉ l.map Prod.fst := by
  rw [Bool.eq_false_iff]
  exact not_congr (jsMapHas_iff l k)

lemma jsSetAdd_contains_self (l : List String) (k : String) :
    (jsSetAdd l k).contains k = true := by
  unfold jsSetAdd
  split
  · assumption
  · rw [contains_iff]
    simp

lemma jsSetAdd_ne_nil (l : List String) (k : String) : jsSetAdd l k ≠ [] := by
  unfold jsSetAdd
  split
  · rename_i h
    exact List.ne_nil_of_mem (contains_iff l k |>.mp h)
  · simp

lemma jsSetDel_contains_self (l : List String) (k : String) :
    (jsSetDel l k).contains k = false := by
  rw [contains_false_iff]
  simp [jsSetDel, List.mem_filter]

lemma find?_jsMapSet_self {V : Type} (l : List (String × V)) (k : String)
    (v : V) :
    (jsMapSet l k v).find? (fun p => p.1 == k) = some (k, v) := by
  unfold jsMapSet
  split
  · rename_i h
    induction l with
    | nil => simp at h
    | cons p t ih =>
      simp only [List.any_cons, Bool.or_eq_true] at h
      rw [List.map_cons]
      by_cases hp : (p.1 == k) = true
      · rw [if_pos hp]
        simp [List.find?_cons]
      · rw [if_neg hp]
        rw [Bool.not_eq_true] at hp
        simp only [List.find?_cons, hp]
        rcases h with h | h
        · simp at hp
          exact absurd h (by simp [hp])
        · exact ih h
  · rename_i h
    induction l with
    | nil =>
      simp [List.find?_cons]
    | cons p t ih =>
      simp only [List.any_cons, Bool.or_eq_true, not_or] at h
      have h1 : (p.1 == k) = false := by
        rw [← Bool.not_eq_true]
        exact h.1
      rw [List.cons_append]
      simp only [List.find?_cons, h1]
      exact ih h.2

lemma jsMapGet_set_self {V : Type} (l : List (String × V)) (k : String)
    (v : V) :
    jsMapGet (jsMapSet l k v) k = some v := by
  rw [jsMapGet, find?_jsMapSet_self]
  rfl

lemma jsMapHas_set_self {V : Type} (l : List (String × V)) (k : String)
    (v : V) :
    jsMapHas (jsMapSet l k v) k = true := by
  rw [jsMapHas_iff]
  have h := find?_jsMapSet_self l k v
  have hm := List.mem_of_find?_eq_some h
  exact List.mem_map.mpr ⟨(k, v), hm, rfl⟩

lemma jsMapHas_delete_self {V : Type} (l : List (String × V)) (k : String) :
    jsMapHas (jsMapDelete l k) k = false := by
  rw [jsMapHas_false_iff]
  intro h
  rcases List.mem_map.mp h with ⟨p, hp, he⟩
  rcases List.mem_filter.mp hp with ⟨_, hccl⟩
  simp only [bne_iff_ne, ne_eq] at hccl
  exact hccl he

lemma jsMapGet_delete_self {V : Type} (l : List (String × V)) (k : String) :
    jsMapGet (jsMapDelete l k) k = none := by
  unfold jsMapGet
  rw [List.find?_eq_none.mpr, Option.map_none']
  intro p hp
  rcases List.mem_filter.mp hp with ⟨_, hccl⟩
  simpa using hccl

lemma jsMapDelete_length {V : Type} (l : List (String × V)) (k : String)
    (hnd : (l.map Prod.fst).Nodup) (hk : jsMapHas l k = true) :
    (jsMapDelete l k).length + 1 = l.length := by
  induction l with
  | nil => simp [jsMapHas] at hk
  | cons p t ih =>
    simp only [List.map_cons, List.nodup_cons] at hnd
    by_cases hp : p.1 = k
    · have hkeep : t.filter (fun q => q.1 != k) = t := by
        rw [List.filter_eq_self]
        intro q hq
        simp only [bne_iff_ne, ne_eq]
        intro he
        exact hnd.1 (by rw [hp]; exact List.mem_map.mpr ⟨q, hq, he⟩)
      simp [jsMapDelete, List.filter_cons, hp, hkeep]
    · have hk' : jsMapHas t k = true := by
        simp only [jsMapHas, List.any_cons, Bool.or_eq_true, beq_iff_eq] at hk
        rcases hk with h | h
        · exact absurd h hp
        · exact h
      simp only [jsMapDelete, List.filter_cons,
        show (p.1 != k) = true by simpa using hp]
      simpa [jsMapDelete] using ih hnd.2 hk'

lemma jsMapUpdate_map_fst {V : Type} (l : List (String × V)) (k : String)
    (f : V → V) :
    (jsMapUpdate l k f).map Prod.fst = l.map Prod.fst := by
  unfold jsMapUpdate
  rw [List.map_map]
  apply List.map_congr_left
  intro p _
  by_cases hp : p.1 == k
  · simp only [Function.comp_apply, if_pos hp]
  · simp only [Function.comp_apply, if_neg hp]

lemma jsMapHas_update {V : Type} (l : List (String × V)) (k k' : String)
    (f : V → V) :
    jsMapHas (jsMapUpdate l k f) k' = jsMapHas l k' := by
  by_cases h : jsMapHas l k'
  · rw [h, jsMapHas_iff, jsMapUpdate_map_fst]
    exact (jsMapHas_iff l k').mp h
  · rw [Bool.not_eq_true] at h
    rw [h, jsMapHas_false_iff, jsMapUpdate_map_fst]
    exact (jsMapHas_false_iff l k').mp h

lemma jsMapGet_update_self {V : Type} (l : List (String × V)) (k : String)
    (f : V → V) :
    jsMapGet (jsMapUpdate l k f) k = (jsMapGet l k).map f := by
  induction l with
  | nil => rfl
  | cons p t ih =>
    simp only [jsMapUpdate, List.map_cons] at *
    by_cases hp : (p.1 == k) = true
    · rw [if_pos hp]
      simp only [jsMapGet, List.find?_cons, hp]
      rfl
    · rw [if_neg hp]
      rw [Bool.not_eq_true] at hp
      simp only [jsMapGet, List.find?_cons, hp]
      exact ih

lemma mem_jsMapUpdate {V : Type} {l : List (String × V)} {k : String}
    {f : V → V} {q : String × V} (hq : q ∈ jsMapUpdate l k f) :
    q ∈ l ∨ ∃ p ∈ l, p.1 = k ∧ q = (p.1, f p.2) := by
  unfold jsMapUpdate at hq
  rcases List.mem_map.mp hq with ⟨p, hp, he⟩
  by_cases hpk : p.1 == k
  · right
    exact ⟨p, hp, by simpa using hpk, by rw [← he, if_pos hpk]⟩
  · left
    rw [← he, if_neg hpk]
    exact hp

lemma foldl_jsMapDelete_nil {V : Type} (R : List String) :
    R.foldl (fun (cs : List (String × V)) k => jsMapDelete cs k) [] = [] := by
  induction R with
  | nil => rfl
  | cons r R ih => simpa [jsMapDelete] using ih

lemma mem_foldl_filter (R : List String) (cv : List String) (e : String) :
    (e ∈ R.foldl (fun cv r => cv.filter (fun x => x != r)) cv) ↔
      (e ∈ cv ∧ e ∉ R) := by
  induction R generalizing cv with
  | nil => simp
  | cons r R ih =>
    rw [List.foldl_cons, ih]
    simp only [List.mem_filter, bne_iff_ne, ne_eq, List.mem_cons]
    tauto

lemma mem_foldl_add (A : List String) (cv : List String) (e : String) :
    (e ∈ A.foldl (fun cv a => if cv.contains a then cv else cv ++ [a]) cv) ↔
      (e ∈ cv ∨ e ∈ A) := by
  induction A generalizing cv with
  | nil => simp
  | cons a A ih =>
    rw [List.foldl_cons, ih]
    have hstep : (e ∈ if cv.contains a then cv else cv ++ [a]) ↔
        (e ∈ cv ∨ e = a) := by
      split
      · rename_i hc
        constructor
        · exact Or.inl
        · rintro (h | h)
          · exact h
          · exact h ▸ (contains_iff cv a).mp hc
      · simp [List.mem_append]
    rw [hstep]
    simp only [List.mem_cons]
    tauto

lemma has_foldl_addOrUpdate {V D : Type} (upd : V → D → V) (mk : D → V)
    (L : List (String × D)) (cs : List (String × V)) (k : String) :
    jsMapHas (L.foldl
      (fun cs kd =>
        if jsMapHas cs kd.1 then
          jsMapUpdate cs kd.1 (fun c => upd c kd.2)
        else cs ++ [(kd.1, mk kd.2)]) cs) k
      = (jsMapHas cs k || L.any (fun p => p.1 == k)) := by
  induction L generalizing cs with
  | nil => simp
  | cons kd L ih =>
    rw [List.foldl_cons, ih]
    have hstep : jsMapHas
        (if jsMapHas cs kd.1 then
          jsMapUpdate cs kd.1 (fun c => upd c kd.2)
        else cs ++ [(kd.1, mk kd.2)]) k = (jsMapHas cs k || (kd.1 == k)) := by
      split
      · rename_i hc
        rw [jsMapHas_update]
        by_cases hk : (kd.1 == k) = true
        · have hkk : kd.1 = k := by simpa using hk
          have hcs : jsMapHas cs k = true := hkk ▸ hc
          simp [hcs]
        · rw [Bool.not_eq_true] at hk
          simp [hk]
      · simp [jsMapHas, List.any_append]
    rw [hstep, List.any_cons, Bool.or_assoc]

lemma has_foldl_updateOnly {V D : Type} (upd : V → D → V)
    (L : List (String × D)) (cs : List (String × V)) (k : String) :
    jsMapHas (L.foldl
      (fun cs kd =>
        if jsMapHas cs kd.1 then
          jsMapUpdate cs kd.1 (fun c => upd c kd.2)
        else cs) cs) k = jsMapHas cs k := by
  induction L generalizing cs with
  | nil => rfl
  | cons kd L ih =>
    rw [List.foldl_cons, ih]
    split
    · exact jsMapHas_update cs kd.1 k (fun c => upd c kd.2)
    · rfl

lemma foldl_addOrUpdate_disjoint {V D : Type} (upd : V → D → V) (mk : D → V)
    (L : List (String × D)) (cs : List (String × V))
    (hnd : (L.map Prod.fst).Nodup)
    (hdisj : ∀ p ∈ L, jsMapHas cs p.1 = false) :
    L.foldl
      (fun cs kd =>
        if jsMapHas cs kd.1 then
          jsMapUpdate cs kd.1 (fun c => upd c kd.2)
        else cs ++ [(kd.1, mk kd.2)]) cs
      = cs ++ L.map (fun kd => (kd.1, mk kd.2)) := by
  induction L generalizing cs with
  | nil => simp
  | cons kd L ih =>
    simp only [List.map_cons, List.nodup_cons] at hnd
    rw [List.foldl_cons, if_neg (by simp [hdisj kd (List.mem_cons_self kd L)])]
    rw [ih (cs ++ [(kd.1, mk kd.2)]) hnd.2]
    · simp
    · intro p hp
      rw [jsMapHas_false_iff]
      simp only [List.map_append, List.map_cons, List.map_nil]
      rw [List.mem_append]
      rintro (h | h)
      · exact (jsMapHas_false_iff cs p.1).mp (hdisj p (List.mem_cons_of_mem _ hp)) h
      · simp only [List.mem_singleton] at h
        exact hnd.1 (h ▸ List.mem_map.mpr ⟨p, hp, rfl⟩)

lemma find?_map_keyed {A B : Type} (g : String × A → B) (l : List (String × A))
    (k : String) :
    ((l.map (fun p => (p.1, g p))).find? (fun q => q.1 == k))
      = (l.find? (fun p => p.1 == k)).map (fun p => (p.1, g p)) := by
  induction l with
  | nil => rfl
  | cons p t ih =>
    rw [List.map_cons]
    by_cases hp : (p.1 == k) = true
    · simp only [List.find?_cons, hp]
      rfl
    · rw [Bool.not_eq_true] at hp
      simp only [List.find?_cons, hp]
      exact ih

lemma find?_filterMap_keyed_none {A B : Type} (g : String × A → Option B)
    (l : List (String × A)) (k : String) (hk : k ∉ l.map Prod.fst) :
    ((l.filterMap (fun p => (g p).map (fun b => (p.1, b)))).find?
      (fun q => q.1 == k)) = none := by
  rw [List.find?_eq_none]
  intro q hq
  rcases List.mem_filterMap.mp hq with ⟨p, hp, hgp⟩
  rcases Option.map_eq_some'.mp hgp with ⟨b, _, hb⟩
  simp only [← hb, beq_iff_eq]
  intro he
  exact hk (he ▸ List.mem_map.mpr ⟨p, hp, rfl⟩)

lemma find?_filterMap_keyed {A B : Type} (g : String × A → Option B)
    (l : List (String × A)) (k : String) (hnd : (l.map Prod.fst).Nodup) :
    ((l.filterMap (fun p => (g p).map (fun b => (p.1, b)))).find?
      (fun q => q.1 == k))
      = (l.find? (fun p => p.1 == k)).bind
          (fun p => (g p).map (fun b => (p.1, b))) := by
  induction l with
  | nil => rfl
  | cons p t ih =>
    simp only [List.map_cons, List.nodup_cons] at hnd
    rw [List.filterMap_cons]
    by_cases hp : (p.1 == k) = true
    · have hpk : p.1 = k := by simpa using hp
      have hk : k ∉ t.map Prod.fst := hpk ▸ hnd.1
      cases hg : g p with
      | none =>
        simp only [Option.map_none']
        rw [find?_filterMap_keyed_none g t k hk]
        simp only [List.find?_cons, hp, hg, Option.map_none', Option.bind]
      | some b =>
        simp only [Option.map_some']
        simp only [List.find?_cons, hp, hg]
        simp [List.find?_cons]
        rw [hg]
        rfl
    · rw [Bool.not_eq_true] at hp
      cases hg : g p with
      | none =>
        simp only [Option.map_none']
        rw [ih hnd.2]
        simp only [List.find?_cons, hp]
      | some b =>
        simp only [Option.map_some']
        have hb : ((p.1, b).1 == k) = false := hp
        simp only [List.find?_cons, hp, hb]
        exact ih hnd.2

lemma map_fst_filterMap_keyed {A B : Type} (g : String × A → Option B)
    (l : List (String × A)) :
    ((l.filterMap (fun p => (g p).map (fun b => (p.1, b)))).map
      Prod.fst).Sublist (l.map Prod.fst) := by
  induction l with
  | nil => simp
  | cons p t ih =>
    rw [List.filterMap_cons]
    cases hg : g p with
    | none =>
      simp only [Option.map_none', List.map_cons]
      exact ih.cons _
    | some b =>
      simp only [Option.map_some', List.map_cons]
      exact ih.cons₂ _

lemma any_filterMap_keyed_true {A B : Type} (g : String × A → Option B)
    (l : List (String × A)) (k : String) (p : String × A)
    (hp : p ∈ l) (hk : p.1 = k) (hg : (g p).isSome = true) :
    ((l.filterMap (fun p => (g p).map (fun b => (p.1, b)))).any
      (fun q => q.1 == k)) = true := by
  rcases Option.isSome_iff_exists.mp hg with ⟨b, hb⟩
  rw [List.any_eq_true]
  refine ⟨(p.1, b), List.mem_filterMap.mpr ⟨p, hp, ?_⟩, by simpa using hk⟩
  rw [hb]
  rfl

lemma has_filterMap_keyed_false {A B : Type} (g : String × A → Option B)
    (l : List (String × A)) (k : String) (h : jsMapHas l k = false) :
    jsMapHas (l.filterMap (fun p => (g p).map (fun b => (p.1, b)))) k
      = false := by
  rw [jsMapHas_false_iff] at h ⊢
  intro hk
  exact h ((map_fst_filterMap_keyed g l).subset hk)

/-! ### Unfolded equations for the flush and apply operations -/

lemma set_applyDelta_eq (s : ReplicatedSet) (d : SetDelta) :
    s.applyDelta d =
      ⟨d.added.foldl (fun cv e => if cv.contains e then cv else cv ++ [e])
        (d.removed.foldl (fun cv e => cv.filter (fun x => x != e))
          (if d.cleared then [] else s.currentValue)),
       s.deltaAdded, s.deltaRemoved, s.deltaCleared⟩ := rfl

lemma counterMap_flush_eq (m : ReplicatedCounterMap) (initial : Bool) :
    m.getAndResetDelta initial =
      (if m.cleared = true ∨ m.removed ≠ [] ∨
          (m.counters.filterMap
            (fun p => ((p.2.getAndResetDelta false).1).map
              (fun d => (p.1, d)))) ≠ [] ∨ initial = true then
        (some ⟨m.cleared, m.removed,
          m.counters.filterMap
            (fun p => ((p.2.getAndResetDelta false).1).map
              (fun d => (p.1, d)))⟩,
         ⟨m.counters.map (fun p => (p.1, (p.2.getAndResetDelta false).2)),
          [], false⟩)
      else (none, m)) := rfl

lemma counterMap_applyDelta_eq (m : ReplicatedCounterMap)
    (d : CounterMapDelta) :
    m.applyDelta d =
      ⟨d.updated.foldl
        (fun cs kd =>
          if jsMapHas cs kd.1 then
            jsMapUpdate cs kd.1 (fun c => c.applyDelta kd.2)
          else cs ++ [(kd.1, ReplicatedCounter.empty.applyDelta kd.2)])
        (d.removed.foldl (fun cs k => jsMapDelete cs k)
          (if d.cleared then [] else m.counters)),
       m.removed, m.cleared⟩ := rfl

lemma map_flush_eq (m : ReplicatedMap) (initial : Bool) :
    m.getAndResetDelta initial =
      (if m.deltaCleared = true ∨ m.deltaRemoved ≠ [] ∨
          (m.currentValue.filterMap
            (fun p => (if m.deltaAdded.contains p.1 then none
              else (p.2.getAndResetDelta false).1).map
                (fun d => (p.1, d)))) ≠ [] ∨
          (m.currentValue.filterMap
            (fun p => (if m.deltaAdded.contains p.1
              then some (CounterDelta.mk p.2.delta) else none).map
                (fun d => (p.1, d)))) ≠ [] ∨ initial = true then
        (some ⟨m.deltaCleared, m.deltaRemoved,
          m.currentValue.filterMap
            (fun p => (if m.deltaAdded.contains p.1
              then some (CounterDelta.mk p.2.delta) else none).map
                (fun d => (p.1, d))),
          m.currentValue.filterMap
            (fun p => (if m.deltaAdded.contains p.1 then none
              else (p.2.getAndResetDelta false).1).map
                (fun d => (p.1, d)))⟩,
         ⟨m.currentValue.map (fun p => (p.1, ⟨p.2.value, 0⟩)), [], [], false⟩)
      else (none, m)) := rfl

lemma multiMap_flush_eq (m : ReplicatedMultiMap) (initial : Bool) :
    m.getAndResetDelta initial =
      (if m.cleared = true ∨ m.removed ≠ [] ∨
          (m.entries.filterMap
            (fun p => ((p.2.getAndResetDelta false).1).map
              (fun d => (p.1, d)))) ≠ [] ∨ initial = true then
        (some ⟨m.cleared, m.removed,
          m.entries.filterMap
            (fun p => ((p.2.getAndResetDelta false).1).map
              (fun d => (p.1, d)))⟩,
         ⟨m.entries.map (fun p => (p.1, (p.2.getAndResetDelta false).2)),
          [], false⟩)
      else (none, m)) := rfl

/-! ### The second of two consecutive flushes is empty -/

lemma counter_flush_delta_zero (c : ReplicatedCounter) :
    ((c.getAndResetDelta false).2).delta = 0 := by
  unfold ReplicatedCounter.getAndResetDelta
  split
  · rfl
  · rename_i h
    simp only [not_or, ne_eq, not_not] at h
    exact h.1

lemma counter_flush_none_of_delta_zero (c : ReplicatedCounter)
    (h : c.delta = 0) :
    (c.getAndResetDelta false).1 = none := by
  unfold ReplicatedCounter.getAndResetDelta
  rw [if_neg (by simp [h])]

lemma counter_flush_twice (c : ReplicatedCounter) :
    (((c.getAndResetDelta false).2).getAndResetDelta false).1 = none :=
  counter_flush_none_of_delta_zero _ (counter_flush_delta_zero c)

lemma set_flush_eq (s : ReplicatedSet) (initial : Bool) :
    s.getAndResetDelta initial =
      (if s.deltaCleared = true ∨ s.deltaAdded ≠ [] ∨ s.deltaRemoved ≠ [] ∨
          initial = true then
        (some ⟨s.deltaCleared, s.deltaRemoved, s.deltaAdded⟩,
         ⟨s.currentValue, [], [], false⟩)
      else (none, s)) := rfl

lemma set_flush_twice (s : ReplicatedSet) :
    (((s.getAndResetDelta false).2).getAndResetDelta false).1 = none := by
  by_cases h : s.deltaCleared = true ∨ s.deltaAdded ≠ [] ∨
      s.deltaRemoved ≠ [] ∨ (false : Bool) = true
  · rw [set_flush_eq s false, if_pos h, set_flush_eq]
    simp
  · rw [set_flush_eq s false, if_neg h]
    rw [set_flush_eq s false, if_neg h]

lemma counterMap_updated_of_reset (l : List (String × ReplicatedCounter)) :
    ((l.map (fun p => (p.1, (p.2.getAndResetDelta false).2))).filterMap
      (fun p => ((p.2.getAndResetDelta false).1).map (fun d => (p.1, d))))
      = [] := by
  rw [List.filterMap_eq_nil_iff]
  intro q hq
  rcases List.mem_map.mp hq with ⟨p, _, he⟩
  rw [← he]
  rw [counter_flush_twice]
  rfl

lemma counterMap_flush_twice (m : ReplicatedCounterMap) :
    (((m.getAndResetDelta false).2).getAndResetDelta false).1 = none := by
  by_cases h : m.cleared = true ∨ m.removed ≠ [] ∨
      (m.counters.filterMap
        (fun p => ((p.2.getAndResetDelta false).1).map
          (fun d => (p.1, d)))) ≠ [] ∨ (false : Bool) = true
  · rw [counterMap_flush_eq m false, if_pos h, counterMap_flush_eq]
    rw [if_neg]
    all_goals simp [counterMap_updated_of_reset]
    intro x c _
    exact counter_flush_twice c
  · rw [counterMap_flush_eq m false, if_neg h]
    rw [counterMap_flush_eq m false, if_neg h]

lemma map_updated_of_reset (l : List (String × ReplicatedCounter)) :
    ((l.map (fun p => (p.1, (⟨p.2.value, 0⟩ : ReplicatedCounter)))).filterMap
      (fun p => (if ([] : List String).contains p.1 then none
        else (p.2.getAndResetDelta false).1).map (fun d => (p.1, d))))
      = [] := by
  rw [List.filterMap_eq_nil_iff]
  intro q hq
  rcases List.mem_map.mp hq with ⟨p, _, he⟩
  rw [← he]
  simp only [List.contains, List.elem_nil, Bool.false_eq_true, if_false]
  rw [counter_flush_none_of_delta_zero _ rfl]
  rfl

lemma map_added_of_reset (l : List (String × ReplicatedCounter)) :
    ((l.map (fun p => (p.1, (⟨p.2.value, 0⟩ : ReplicatedCounter)))).filterMap
      (fun p => (if ([] : List String).contains p.1
        then some (CounterDelta.mk p.2.delta) else none).map
          (fun d => (p.1, d)))) = [] := by
  rw [List.filterMap_eq_nil_iff]
  intro q hq
  rcases List.mem_map.mp hq with ⟨p, _, he⟩
  rw [← he]
  simp [List.contains]

lemma map_flush_twice (m : ReplicatedMap) :
    (((m.getAndResetDelta false).2).getAndResetDelta false).1 = none := by
  by_cases h : m.deltaCleared = true ∨ m.deltaRemoved ≠ [] ∨
      (m.currentValue.filterMap
        (fun p => (if m.deltaAdded.contains p.1 then none
          else (p.2.getAndResetDelta false).1).map
            (fun d => (p.1, d)))) ≠ [] ∨
      (m.currentValue.filterMap
        (fun p => (if m.deltaAdded.contains p.1
          then some (CounterDelta.mk p.2.delta) else none).map
            (fun d => (p.1, d)))) ≠ [] ∨ (false : Bool) = true
  · rw [map_flush_eq m false, if_pos h, map_flush_eq]
    rw [if_neg]
    all_goals simp [map_updated_of_reset, map_added_of_reset]
    intro x c _
    exact counter_flush_none_of_delta_zero _ rfl
  · rw [map_flush_eq m false, if_neg h]
    rw [map_flush_eq m false, if_neg h]

lemma multiMap_updated_of_reset (l : List (String × ReplicatedSet)) :
    ((l.map (fun p => (p.1, (p.2.getAndResetDelta false).2))).filterMap
      (fun p => ((p.2.getAndResetDelta false).1).map (fun d => (p.1, d))))
      = [] := by
  rw [List.filterMap_eq_nil_iff]
  intro q hq
  rcases List.mem_map.mp hq with ⟨p, _, he⟩
  rw [← he]
  rw [set_flush_twice]
  rfl

lemma multiMap_flush_twice (m : ReplicatedMultiMap) :
    (((m.getAndResetDelta false).2).getAndResetDelta false).1 = none := by
  by_cases h : m.cleared = true ∨ m.removed ≠ [] ∨
      (m.entries.filterMap
        (fun p => ((p.2.getAndResetDelta false).1).map
          (fun d => (p.1, d)))) ≠ [] ∨ (false : Bool) = true
  · rw [multiMap_flush_eq m false, if_pos h, multiMap_flush_eq]
    rw [if_neg]
    all_goals simp [multiMap_updated_of_reset]
    intro x st _
    exact set_flush_twice st
  · rw [multiMap_flush_eq m false, if_neg h]
    rw [multiMap_flush_eq m false, if_neg h]

/-! ### Invariants of counter maps reachable by user mutations -/

lemma cm_increment_nodup (m : ReplicatedCounterMap) (k : String) (n : Int)
    (h : (m.counters.map Prod.fst).Nodup) :
    (((m.increment k n).counters).map Prod.fst).Nodup := by
  unfold ReplicatedCounterMap.increment
  split
  · simpa [jsMapUpdate_map_fst] using h
  · rename_i hh
    rw [Bool.not_eq_true] at hh
    simp only [List.map_append, List.map_cons, List.map_nil]
    simp [List.nodup_append, h]
    intro x hx
    exact (jsMapHas_false_iff m.counters k).mp hh
      (List.mem_map.mpr ⟨(k, x), hx, rfl⟩)

lemma cm_increment_vd (m : ReplicatedCounterMap) (k : String) (n : Int)
    (h : ∀ p ∈ m.counters, (p.2 : ReplicatedCounter).value = p.2.delta) :
    ∀ p ∈ (m.increment k n).counters, (p.2 : ReplicatedCounter).value = p.2.delta := by
  unfold ReplicatedCounterMap.increment
  split
  · intro p hp
    have hp' : p ∈ jsMapUpdate m.counters k (fun c => c.increment n) := hp
    rcases mem_jsMapUpdate hp' with h1 | ⟨q, hq, _, he⟩
    · exact h p h1
    · rw [he]
      show (q.2.increment n).value = (q.2.increment n).delta
      unfold ReplicatedCounter.increment
      rw [h q hq]
  · intro p hp
    have hp' : p ∈ m.counters ++ [(k, ReplicatedCounter.empty.increment n)] := hp
    rcases List.mem_append.mp hp' with h1 | h1
    · exact h p h1
    · simp only [List.mem_singleton] at h1
      rw [h1]
      rfl

lemma cm_mutation_nodup (m : ReplicatedCounterMap) (mu : CounterMapMutation)
    (h : (m.counters.map Prod.fst).Nodup) :
    (((m.applyMutation mu).counters).map Prod.fst).Nodup := by
  cases mu with
  | increment k n => exact cm_increment_nodup m k n h
  | decrement k n => exact cm_increment_nodup m k (-n) h
  | delete k =>
    show (((m.delete k).counters).map Prod.fst).Nodup
    unfold ReplicatedCounterMap.delete
    split
    · exact List.Nodup.sublist ((List.filter_sublist _).map Prod.fst) h
    · exact h
  | clear =>
    show (((m.clear).counters).map Prod.fst).Nodup
    unfold ReplicatedCounterMap.clear
    split
    · simp
    · exact h

lemma cm_mutation_vd (m : ReplicatedCounterMap) (mu : CounterMapMutation)
    (h : ∀ p ∈ m.counters, (p.2 : ReplicatedCounter).value = p.2.delta) :
    ∀ p ∈ (m.applyMutation mu).counters,
      (p.2 : ReplicatedCounter).value = p.2.delta := by
  cases mu with
  | increment k n => exact cm_increment_vd m k n h
  | decrement k n => exact cm_increment_vd m k (-n) h
  | delete k =>
    show ∀ p ∈ (m.delete k).counters, _
    unfold ReplicatedCounterMap.delete
    split
    · intro p hp
      exact h p (List.mem_of_mem_filter hp)
    · exact h
  | clear =>
    show ∀ p ∈ (m.clear).counters, _
    unfold ReplicatedCounterMap.clear
    split
    · intro p hp
      simp at hp
    · exact h

lemma cm_foldl_inv (ms : List CounterMapMutation) (m : ReplicatedCounterMap)
    (h1 : (m.counters.map Prod.fst).Nodup)
    (h2 : ∀ p ∈ m.counters, (p.2 : ReplicatedCounter).value = p.2.delta) :
    (((ms.foldl ReplicatedCounterMap.applyMutation m).counters).map
        Prod.fst).Nodup ∧
      ∀ p ∈ (ms.foldl ReplicatedCounterMap.applyMutation m).counters,
        (p.2 : ReplicatedCounter).value = p.2.delta := by
  induction ms generalizing m with
  | nil => exact ⟨h1, h2⟩
  | cons mu ms ih =>
    rw [List.foldl_cons]
    exact ih (m.applyMutation mu) (cm_mutation_nodup m mu h1)
      (cm_mutation_vd m mu h2)

lemma cm_mutations_inv (ms : List CounterMapMutation) :
    (((ReplicatedCounterMap.applyMutations ms).counters).map
        Prod.fst).Nodup ∧
      ∀ p ∈ (ReplicatedCounterMap.applyMutations ms).counters,
        (p.2 : ReplicatedCounter).value = p.2.delta :=
  cm_foldl_inv ms ReplicatedCounterMap.empty (by simp [ReplicatedCounterMap.empty])
    (by intro p hp; simp [ReplicatedCounterMap.empty] at hp)


/-! ### Claim theorems -/

/-- C2: CounterMap convergence scenario: replica A increments "k" by 3 and
flushes delta D1; a fresh replica B applies D1; A increments by 2 giving
delta D2 and B increments by 7 giving delta D3; after B applies D2 and A
applies D3 both replicas report `get("k") = 12`. -/
theorem counterMap_convergence_scenario :
    (let a0 := ReplicatedCounterMap.empty.increment "k" 3
     let f1 := a0.getAndResetDelta false
     let b0 := ReplicatedCounterMap.empty.applyDelta (f1.1.getD ⟨false, [], []⟩)
     let a1 := f1.2.increment "k" 2
     let f2 := a1.getAndResetDelta false
     let b1 := b0.increment "k" 7
     let f3 := b1.getAndResetDelta false
     let b2 := f3.2.applyDelta (f2.1.getD ⟨false, [], []⟩)
     let a2 := f2.2.applyDelta (f3.1.getD ⟨false, [], []⟩)
     f1.1.isSome = true ∧ f2.1.isSome = true ∧ f3.1.isSome = true ∧
       b2.get "k" = some 12 ∧ a2.get "k" = some 12) := by
  decide

/-- C3: for every CRDT state, the first `getAndResetDelta()` returns the
accumulated delta (null exactly when there are no pending changes, shown
for `ReplicatedSet`), and a second `getAndResetDelta()` with no intervening
mutation returns null — for `ReplicatedSet`, `ReplicatedCounter`,
`ReplicatedCounterMap`, `ReplicatedMap` and `ReplicatedMultiMap`. -/
theorem getAndResetDelta_second_flush_null :
    (∀ s : ReplicatedSet,
      ((s.getAndResetDelta false).1 = none ↔
        (s.deltaCleared = false ∧ s.deltaAdded = [] ∧ s.deltaRemoved = []))) ∧
    (∀ s : ReplicatedSet,
      (((s.getAndResetDelta false).2).getAndResetDelta false).1 = none) ∧
    (∀ c : ReplicatedCounter,
      (((c.getAndResetDelta false).2).getAndResetDelta false).1 = none) ∧
    (∀ m : ReplicatedCounterMap,
      (((m.getAndResetDelta false).2).getAndResetDelta false).1 = none) ∧
    (∀ m : ReplicatedMap,
      (((m.getAndResetDelta false).2).getAndResetDelta false).1 = none) ∧
    (∀ m : ReplicatedMultiMap,
      (((m.getAndResetDelta false).2).getAndResetDelta false).1 = none) := by
  refine ⟨?_, set_flush_twice, counter_flush_twice, counterMap_flush_twice,
    map_flush_twice, multiMap_flush_twice⟩
  intro s
  rw [set_flush_eq]
  split
  · rename_i h
    constructor
    · intro hn
      exact absurd hn (by simp)
    · rintro ⟨h1, h2, h3⟩
      rcases h with h | h | h | h
      · rw [h1] at h
        exact (Bool.false_ne_true h).elim
      · exact (h h2).elim
      · exact (h h3).elim
      · exact (Bool.false_ne_true h).elim
  · rename_i h
    simp only [not_or, ne_eq, not_not] at h
    constructor
    · intro _
      exact ⟨Bool.eq_false_iff.mpr h.1, h.2.1, h.2.2.1⟩
    · intro _
      rfl

/-- C8: constructing a `ContextFailure` with no status code always
succeeds, and with a status code succeeds exactly for integer codes 1-16
(status 0 and out-of-range codes throw). -/
theorem contextFailure_status_range (m : String) (c : Int) :
    exceptOk (mkContextFailure m none) = true ∧
    exceptOk (mkContextFailure m (some c)) = decide (1 ≤ c ∧ c ≤ 16) := by
  refine ⟨rfl, ?_⟩
  simp only [mkContextFailure]
  by_cases h0 : c = 0
  · rw [if_pos h0]
    have : ¬ (1 ≤ c ∧ c ≤ 16) := by omega
    simp [exceptOk, this]
  · rw [if_neg h0]
    by_cases hr : c < 0 ∨ c > 16
    · rw [if_pos hr]
      have : ¬ (1 ≤ c ∧ c ≤ 16) := by omega
      simp [exceptOk, this]
    · rw [if_neg hr]
      have : 1 ≤ c ∧ c ≤ 16 := by omega
      simp [exceptOk, this]

/-! ### Invariants of maps reachable by user mutations -/

lemma mem_jsSetAdd_of_mem (l : List String) (k e : String) (h : e ∈ l) :
    e ∈ jsSetAdd l k := by
  unfold jsSetAdd
  split
  · exact h
  · exact List.mem_append_left _ h

lemma mem_jsSetDel_of_ne (l : List String) (k e : String) (h : e ∈ l)
    (hne : e ≠ k) :
    e ∈ jsSetDel l k := by
  unfold jsSetDel
  rw [List.mem_filter]
  exact ⟨h, by simpa using hne⟩

lemma jsMapSet_nodup {V : Type} (l : List (String × V)) (k : String) (v : V)
    (h : (l.map Prod.fst).Nodup) :
    ((jsMapSet l k v).map Prod.fst).Nodup := by
  unfold jsMapSet
  split
  · have hkeys : (l.map (fun p => if p.1 == k then (k, v) else p)).map
        Prod.fst = l.map Prod.fst := by
      rw [List.map_map]
      apply List.map_congr_left
      intro p _
      by_cases hp : (p.1 == k) = true
      · simp only [Function.comp_apply, if_pos hp]
        exact ((by simpa using hp : p.1 = k)).symm
      · simp only [Function.comp_apply, if_neg hp]
    rw [hkeys]
    exact h
  · rename_i hh
    rw [Bool.not_eq_true] at hh
    simp only [List.map_append, List.map_cons, List.map_nil]
    simp [List.nodup_append, h]
    intro x hx
    exact (jsMapHas_false_iff l k).mp hh (List.mem_map.mpr ⟨(k, x), hx, rfl⟩)

lemma mem_jsMapSet {V : Type} {l : List (String × V)} {k : String} {v : V}
    {q : String × V} (hq : q ∈ jsMapSet l k v) :
    q = (k, v) ∨ q ∈ l := by
  unfold jsMapSet at hq
  split at hq
  · rcases List.mem_map.mp hq with ⟨p, hp, he⟩
    by_cases hpk : (p.1 == k) = true
    · left
      rw [← he, if_pos hpk]
    · right
      rw [← he, if_neg hpk]
      exact hp
  · rcases List.mem_append.mp hq with h1 | h1
    · right
      exact h1
    · left
      simpa using h1

lemma rm_set_components (m : ReplicatedMap) (k : String)
    (v : ReplicatedCounter) :
    (m.set k v).currentValue = jsMapSet m.currentValue k v ∧
    (m.set k v).deltaAdded = jsSetAdd m.deltaAdded k := by
  unfold ReplicatedMap.set
  split
  · split
    · exact ⟨rfl, rfl⟩
    · exact ⟨rfl, rfl⟩
  · exact ⟨rfl, rfl⟩

lemma map_fst_keyed_map {A B : Type} (f : String × A → B)
    (l : List (String × A)) :
    ((l.map (fun p => (p.1, f p))).map Prod.fst) = l.map Prod.fst := by
  rw [List.map_map]
  apply List.map_congr_left
  intro p _
  rfl

lemma jsMapHas_keyed_map {A B : Type} (f : String × A → B)
    (l : List (String × A)) (k : String) :
    jsMapHas (l.map (fun p => (p.1, f p))) k = jsMapHas l k := by
  by_cases h : jsMapHas l k
  · rw [h, jsMapHas_iff, map_fst_keyed_map]
    exact (jsMapHas_iff l k).mp h
  · rw [Bool.not_eq_true] at h
    rw [h, jsMapHas_false_iff, map_fst_keyed_map]
    exact (jsMapHas_false_iff l k).mp h

lemma filterMap_keyed_all_some {A B : Type} (q : String → Bool)
    (f : String × A → B) (l : List (String × A))
    (h : ∀ p ∈ l, q p.1 = true) :
    (l.filterMap (fun p => (if q p.1 then some (f p) else none).map
      (fun d => (p.1, d)))) = l.map (fun p => (p.1, f p)) := by
  induction l with
  | nil => rfl
  | cons p t ih =>
    have hq := h p (List.mem_cons_self p t)
    rw [List.filterMap_cons, List.map_cons,
      ← ih (fun x hx => h x (List.mem_cons_of_mem p hx))]
    simp [hq]

lemma filterMap_keyed_if_none {A B : Type} (q : String → Bool)
    (g : String × A → Option B) (l : List (String × A))
    (h : ∀ p ∈ l, q p.1 = true) :
    (l.filterMap (fun p => (if q p.1 then none else g p).map
      (fun d => (p.1, d)))) = [] := by
  rw [List.filterMap_eq_nil_iff]
  intro p hp
  rw [h p hp, if_pos rfl]
  rfl

lemma rm_mutation_inv (m : ReplicatedMap) (mu : MapMutation)
    (h1 : (m.currentValue.map Prod.fst).Nodup)
    (h2 : ∀ p ∈ m.currentValue, m.deltaAdded.contains p.1 = true)
    (h3 : ∀ p ∈ m.currentValue, (p.2 : ReplicatedCounter).value = p.2.delta) :
    ((m.applyMutation mu).currentValue.map Prod.fst).Nodup ∧
    (∀ p ∈ (m.applyMutation mu).currentValue,
      (m.applyMutation mu).deltaAdded.contains p.1 = true) ∧
    (∀ p ∈ (m.applyMutation mu).currentValue,
      (p.2 : ReplicatedCounter).value = p.2.delta) := by
  cases mu with
  | set k n =>
    obtain ⟨hcv, hda⟩ := rm_set_components m k ⟨n, n⟩
    simp only [ReplicatedMap.applyMutation]
    refine ⟨?_, ?_, ?_⟩
    · rw [hcv]
      exact jsMapSet_nodup m.currentValue k _ h1
    · intro p hp
      rw [hda]
      rw [hcv] at hp
      rcases mem_jsMapSet hp with he | hmem
      · rw [he]
        exact jsSetAdd_contains_self m.deltaAdded k
      · rw [contains_iff]
        exact mem_jsSetAdd_of_mem _ k _ ((contains_iff _ _).mp (h2 p hmem))
    · intro p hp
      rw [hcv] at hp
      rcases mem_jsMapSet hp with he | hmem
      · rw [he]
      · exact h3 p hmem
  | increment k n =>
    simp only [ReplicatedMap.applyMutation]
    refine ⟨?_, ?_, ?_⟩
    · rw [show (m.incrementAt k n).currentValue
          = jsMapUpdate m.currentValue k (fun c => c.increment n) from rfl,
        jsMapUpdate_map_fst]
      exact h1
    · intro p hp
      have hp' : p ∈ jsMapUpdate m.currentValue k (fun c => c.increment n) :=
        hp
      show m.deltaAdded.contains p.1 = true
      rcases mem_jsMapUpdate hp' with hmem | ⟨q, hq, _, he⟩
      · exact h2 p hmem
      · rw [he]
        exact h2 q hq
    · intro p hp
      have hp' : p ∈ jsMapUpdate m.currentValue k (fun c => c.increment n) :=
        hp
      rcases mem_jsMapUpdate hp' with hmem | ⟨q, hq, _, he⟩
      · exact h3 p hmem
      · rw [he]
        show (q.2.increment n).value = (q.2.increment n).delta
        unfold ReplicatedCounter.increment
        rw [h3 q hq]
  | delete k =>
    simp only [ReplicatedMap.applyMutation]
    unfold ReplicatedMap.delete
    split
    · split
      · refine ⟨?_, ?_, ?_⟩
        · exact List.Nodup.sublist ((List.filter_sublist _).map Prod.fst) h1
        · intro p hp
          have hp' : p ∈ jsMapDelete m.currentValue k := hp
          have hpm := List.mem_of_mem_filter hp'
          have hpk : p.1 ≠ k := by
            rcases List.mem_filter.mp hp' with ⟨_, hb⟩
            simpa using hb
          rw [contains_iff]
          exact mem_jsSetDel_of_ne _ _ _
            ((contains_iff _ _).mp (h2 p hpm)) hpk
        · intro p hp
          exact h3 p (List.mem_of_mem_filter hp)
      · refine ⟨?_, ?_, ?_⟩
        · exact List.Nodup.sublist ((List.filter_sublist _).map Prod.fst) h1
        · intro p hp
          exact h2 p (List.mem_of_mem_filter hp)
        · intro p hp
          exact h3 p (List.mem_of_mem_filter hp)
    · exact ⟨h1, h2, h3⟩
  | clear =>
    simp only [ReplicatedMap.applyMutation]
    unfold ReplicatedMap.clear
    split
    · refine ⟨by simp, ?_, ?_⟩
      · intro p hp
        simp at hp
      · intro p hp
        simp at hp
    · exact ⟨h1, h2, h3⟩

lemma rm_foldl_inv (ms : List MapMutation) (m : ReplicatedMap)
    (h1 : (m.currentValue.map Prod.fst).Nodup)
    (h2 : ∀ p ∈ m.currentValue, m.deltaAdded.contains p.1 = true)
    (h3 : ∀ p ∈ m.currentValue, (p.2 : ReplicatedCounter).value = p.2.delta) :
    (((ms.foldl ReplicatedMap.applyMutation m).currentValue.map
        Prod.fst).Nodup) ∧
    (∀ p ∈ (ms.foldl ReplicatedMap.applyMutation m).currentValue,
      (ms.foldl ReplicatedMap.applyMutation m).deltaAdded.contains p.1
        = true) ∧
    (∀ p ∈ (ms.foldl ReplicatedMap.applyMutation m).currentValue,
      (p.2 : ReplicatedCounter).value = p.2.delta) := by
  induction ms generalizing m with
  | nil => exact ⟨h1, h2, h3⟩
  | cons mu ms ih =>
    rw [List.foldl_cons]
    obtain ⟨g1, g2, g3⟩ := rm_mutation_inv m mu h1 h2 h3
    exact ih (m.applyMutation mu) g1 g2 g3

lemma rm_mutations_inv (ms : List MapMutation) :
    (((ReplicatedMap.applyMutations ms).currentValue.map Prod.fst).Nodup) ∧
    (∀ p ∈ (ReplicatedMap.applyMutations ms).currentValue,
      (ReplicatedMap.applyMutations ms).deltaAdded.contains p.1 = true) ∧
    (∀ p ∈ (ReplicatedMap.applyMutations ms).currentValue,
      (p.2 : ReplicatedCounter).value = p.2.delta) :=
  rm_foldl_inv ms ReplicatedMap.empty (by simp [ReplicatedMap.empty])
    (by intro p hp; simp [ReplicatedMap.empty] at hp)
    (by intro p hp; simp [ReplicatedMap.empty] at hp)

lemma map_initial_reconstruction_core (C : ReplicatedMap)
    (hnd : (C.currentValue.map Prod.fst).Nodup)
    (hadd : ∀ p ∈ C.currentValue, C.deltaAdded.contains p.1 = true)
    (hvd : ∀ p ∈ C.currentValue, (p.2 : ReplicatedCounter).value = p.2.delta)
    (k : String) :
    ((C.getAndResetDelta true).1).elim False
      (fun d => (ReplicatedMap.empty.applyDelta d).has k = C.has k ∧
        ((ReplicatedMap.empty.applyDelta d).get k).map (fun c => c.value)
          = (C.get k).map (fun c => c.value)) := by
  rw [map_flush_eq C true, if_pos (by simp)]
  simp only [Option.elim]
  rw [filterMap_keyed_all_some (fun x => C.deltaAdded.contains x)
    (fun p => CounterDelta.mk p.2.delta) C.currentValue hadd]
  rw [filterMap_keyed_if_none (fun x => C.deltaAdded.contains x)
    (fun p => (p.2.getAndResetDelta false).1) C.currentValue hadd]
  have hndG : ((C.currentValue.map
      (fun p => (p.1, CounterDelta.mk p.2.delta))).map Prod.fst).Nodup := by
    rw [map_fst_keyed_map]
    exact hnd
  have hcv : (ReplicatedMap.empty.applyDelta
      ⟨C.deltaCleared, C.deltaRemoved,
       C.currentValue.map (fun p => (p.1, CounterDelta.mk p.2.delta)),
       []⟩).currentValue
      = C.currentValue.map
          (fun p => (p.1, (⟨0 + p.2.delta, 0⟩ : ReplicatedCounter))) := by
    rw [show (ReplicatedMap.empty.applyDelta
        ⟨C.deltaCleared, C.deltaRemoved,
         C.currentValue.map (fun p => (p.1, CounterDelta.mk p.2.delta)),
         []⟩).currentValue
      = (C.currentValue.map
          (fun p => (p.1, CounterDelta.mk p.2.delta))).foldl
          (fun cv kd =>
            if jsMapHas cv kd.1 then
              jsMapUpdate cv kd.1 (fun c => c.applyDelta kd.2)
            else cv ++ [(kd.1, ReplicatedCounter.empty.applyDelta kd.2)])
          (C.deltaRemoved.foldl (fun cv k => jsMapDelete cv k)
            (if C.deltaCleared = true then [] else [])) from rfl]
    rw [ite_self, foldl_jsMapDelete_nil]
    rw [foldl_addOrUpdate_disjoint _ _ _ [] hndG (fun p _ => rfl)]
    rw [List.nil_append, List.map_map]
    apply List.map_congr_left
    intro p _
    rfl
  constructor
  · show jsMapHas (ReplicatedMap.empty.applyDelta
        ⟨C.deltaCleared, C.deltaRemoved,
         C.currentValue.map (fun p => (p.1, CounterDelta.mk p.2.delta)),
         []⟩).currentValue k = jsMapHas C.currentValue k
    rw [hcv, jsMapHas_keyed_map]
  · show (jsMapGet (ReplicatedMap.empty.applyDelta
        ⟨C.deltaCleared, C.deltaRemoved,
         C.currentValue.map (fun p => (p.1, CounterDelta.mk p.2.delta)),
         []⟩).currentValue k).map (fun c => c.value)
      = (jsMapGet C.currentValue k).map (fun c => c.value)
    rw [hcv]
    unfold jsMapGet
    rw [find?_map_keyed
      (fun (p : String × ReplicatedCounter) =>
        (⟨0 + p.2.delta, 0⟩ : ReplicatedCounter))]
    cases hfind : C.currentValue.find? (fun p => p.1 == k) with
    | none => simp
    | some p =>
      have hp := hvd p (List.mem_of_find?_eq_some hfind)
      simp [hp]

/-- C1 counterexample: after `increment("k", 0)` the counter map contains
the key "k", but the delta returned by `getAndResetDelta(initial := true)`
applied to a fresh instance yields a map without "k": the reconstruction is
not observationally equal to the original. -/
theorem initial_delta_counterexample :
    (ReplicatedCounterMap.empty.increment "k" 0).has "k" = true ∧
    ((ReplicatedCounterMap.empty.increment "k" 0).getAndResetDelta true).1
      = some ⟨false, [], []⟩ ∧
    (ReplicatedCounterMap.empty.applyDelta ⟨false, [], []⟩).has "k" = false := by
  decide

/-- C1 (amended): for a CRDT instance built from a fresh instance by any
sequence of user mutations, applying the delta returned by
`getAndResetDelta(initial := true)` to a fresh instance of the same kind
yields, for `ReplicatedMap`, an instance observationally equal to the
original (same keys, same nested counter values — added entries are
flushed with the nested `getAndResetDelta(true)`, so every key is
emitted); for `ReplicatedCounterMap`, which flushes its nested counters
without propagating `initial`, the reconstruction is observationally
equal to the original restricted to the keys whose counter value
(equivalently, pending delta) is nonzero — keys with zero net change are
dropped. -/
theorem initial_delta_reconstruction :
    (∀ (ms : List CounterMapMutation) (k : String),
      (((ReplicatedCounterMap.applyMutations ms).getAndResetDelta
          true).1).elim False
        (fun d => (ReplicatedCounterMap.empty.applyDelta d).get k
          = ((ReplicatedCounterMap.applyMutations ms).get k).bind
              (fun v => if v = 0 then none else some v))) ∧
    (∀ (ms : List MapMutation) (k : String),
      (((ReplicatedMap.applyMutations ms).getAndResetDelta true).1).elim
        False
        (fun d => (ReplicatedMap.empty.applyDelta d).has k
            = (ReplicatedMap.applyMutations ms).has k ∧
          ((ReplicatedMap.empty.applyDelta d).get k).map (fun c => c.value)
            = ((ReplicatedMap.applyMutations ms).get k).map
                (fun c => c.value))) := by
  constructor
  case right =>
    intro ms k
    obtain ⟨hnd, hadd, hvd⟩ := rm_mutations_inv ms
    exact map_initial_reconstruction_core
      (ReplicatedMap.applyMutations ms) hnd hadd hvd k
  case left =>
  intro ms k
  obtain ⟨hnd, hvd⟩ := cm_mutations_inv ms
  rw [counterMap_flush_eq (ReplicatedCounterMap.applyMutations ms) true,
    if_pos (by simp)]
  simp only [Option.elim]
  rw [counterMap_applyDelta_eq]
  have hndu : (((ReplicatedCounterMap.applyMutations ms).counters.filterMap
      (fun p => ((p.2.getAndResetDelta false).1).map
        (fun d => (p.1, d)))).map Prod.fst).Nodup :=
    List.Nodup.sublist (map_fst_filterMap_keyed _ _) hnd
  rw [show (if (⟨(ReplicatedCounterMap.applyMutations ms).cleared,
      (ReplicatedCounterMap.applyMutations ms).removed,
      (ReplicatedCounterMap.applyMutations ms).counters.filterMap
        (fun p => ((p.2.getAndResetDelta false).1).map
          (fun d => (p.1, d)))⟩ : CounterMapDelta).cleared then []
      else ReplicatedCounterMap.empty.counters)
    = ([] : List (String × ReplicatedCounter)) by split <;> rfl]
  rw [foldl_jsMapDelete_nil]
  rw [foldl_addOrUpdate_disjoint _ _ _ [] hndu (by intro p _; rfl)]
  simp only [ReplicatedCounterMap.get, List.nil_append]
  unfold jsMapGet
  rw [find?_map_keyed (fun p => ReplicatedCounter.empty.applyDelta p.2)]
  rw [find?_filterMap_keyed _ _ _ hnd]
  cases hfind : (ReplicatedCounterMap.applyMutations ms).counters.find?
      (fun p => p.1 == k) with
  | none => simp
  | some p =>
    have hpv := hvd p (List.mem_of_find?_eq_some hfind)
    unfold ReplicatedCounter.getAndResetDelta
    rw [show ((some p).bind fun p =>
        Option.map (fun b => (p.1, b))
          (if p.2.delta ≠ 0 ∨ false = true
            then (some (CounterDelta.mk p.2.delta),
              (⟨p.2.value, 0⟩ : ReplicatedCounter))
            else (none, p.2)).1)
      = Option.map (fun b => (p.1, b))
          (if p.2.delta ≠ 0 ∨ false = true
            then (some (CounterDelta.mk p.2.delta),
              (⟨p.2.value, 0⟩ : ReplicatedCounter))
            else (none, p.2)).1 from rfl]
    by_cases hd : p.2.delta = 0
    · rw [if_neg (by simp [hd])]
      simp [hpv, hd]
    · rw [if_pos (by simp [hd])]
      simp [ReplicatedCounter.applyDelta, ReplicatedCounter.empty, hpv, hd]

/-! ### Support for claims about add-then-delete and set idempotence -/

lemma mem_set_applyDelta (s : ReplicatedSet) (d : SetDelta) (e : String) :
    (e ∈ (s.applyDelta d).currentValue) ↔
      (e ∈ d.added ∨
        ((e ∈ (if d.cleared = true then ([] : List String)
          else s.currentValue)) ∧ e ∉ d.removed)) := by
  simp only [set_applyDelta_eq]
  rw [mem_foldl_add, mem_foldl_filter]
  tauto

lemma add_contains_self (s : ReplicatedSet) (e : String) :
    ((s.add e).currentValue.contains e) = true := by
  unfold ReplicatedSet.add
  split
  · assumption
  · split
    · rw [contains_iff]
      simp
    · rw [contains_iff]
      simp

lemma add_delete_deltaAdded (s : ReplicatedSet) (e : String) :
    (((s.add e).delete e).deltaAdded.contains e) = false := by
  have hadd := add_contains_self s e
  unfold ReplicatedSet.delete
  rw [if_pos hadd]
  by_cases hlen : (s.add e).currentValue.length = 1
  · rw [if_pos hlen]
    unfold ReplicatedSet.clear
    rw [if_pos (List.length_pos.mpr
      (List.ne_nil_of_mem ((contains_iff _ e).mp hadd)))]
    rfl
  · rw [if_neg hlen]
    by_cases hda : (s.add e).deltaAdded.contains e = true
    · rw [if_pos hda]
      exact jsSetDel_contains_self _ e
    · rw [if_neg hda]
      exact Bool.eq_false_iff.mpr hda

lemma map_applyDelta_empty_currentValue (d : MapDelta) :
    (ReplicatedMap.empty.applyDelta d).currentValue
      = d.updated.foldl
          (fun cv kd =>
            if jsMapHas cv kd.1 then
              jsMapUpdate cv kd.1 (fun c => c.applyDelta kd.2)
            else cv)
          (d.added.foldl
            (fun cv kd =>
              if jsMapHas cv kd.1 then
                jsMapUpdate cv kd.1 (fun c => c.applyDelta kd.2)
              else cv ++ [(kd.1, ReplicatedCounter.empty.applyDelta kd.2)])
            (d.removed.foldl (fun cv k => jsMapDelete cv k)
              (if d.cleared then [] else []))) := rfl

lemma map_set_has (m : ReplicatedMap) (k : String) (v : ReplicatedCounter) :
    jsMapHas (m.set k v).currentValue k = true := by
  unfold ReplicatedMap.set
  exact jsMapHas_set_self _ k v

lemma map_set_delete_has (m : ReplicatedMap) (k : String)
    (v : ReplicatedCounter) :
    jsMapHas ((m.set k v).delete k).currentValue k = false := by
  unfold ReplicatedMap.delete
  rw [if_pos (map_set_has m k v)]
  split
  · exact jsMapHas_delete_self _ k
  · exact jsMapHas_delete_self _ k

/-- C4: for every `ReplicatedSet` state (resp. `ReplicatedMap` state),
adding an element (resp. setting a key) and deleting it again inside the
same flush window yields, at the next flush, either a null delta or a
delta whose application to a fresh replica leaves the element (key)
absent. -/
theorem add_delete_flush_absent :
    (∀ (s : ReplicatedSet) (e : String),
      ((((s.add e).delete e).getAndResetDelta false).1).elim True
        (fun d => (ReplicatedSet.empty.applyDelta d).hasElem e = false)) ∧
    (∀ (m : ReplicatedMap) (k : String) (v : ReplicatedCounter),
      ((((m.set k v).delete k).getAndResetDelta false).1).elim True
        (fun d => (ReplicatedMap.empty.applyDelta d).has k = false)) := by
  constructor
  · intro s e
    rw [set_flush_eq]
    split
    · simp only [Option.elim]
      rw [ReplicatedSet.hasElem, contains_false_iff]
      intro hmem
      rcases (mem_set_applyDelta ReplicatedSet.empty _ e).mp hmem with
        hin | ⟨hin, _⟩
      · exact absurd ((contains_iff _ e).mpr hin)
          (by rw [add_delete_deltaAdded s e]; exact Bool.false_ne_true)
      · revert hin
        split
        · exact List.not_mem_nil e
        · exact List.not_mem_nil e
    · exact trivial
  · intro m k v
    rw [map_flush_eq]
    split
    · simp only [Option.elim]
      rw [ReplicatedMap.has]
      rw [show (ReplicatedMap.empty.applyDelta
          ⟨((m.set k v).delete k).deltaCleared,
           ((m.set k v).delete k).deltaRemoved,
           ((m.set k v).delete k).currentValue.filterMap
             (fun p => (if ((m.set k v).delete k).deltaAdded.contains p.1
               then some (CounterDelta.mk p.2.delta) else none).map
                 (fun d => (p.1, d))),
           ((m.set k v).delete k).currentValue.filterMap
             (fun p => (if ((m.set k v).delete k).deltaAdded.contains p.1
               then none else (p.2.getAndResetDelta false).1).map
                 (fun d => (p.1, d)))⟩ : ReplicatedMap).currentValue
        = _ from map_applyDelta_empty_currentValue _]
      rw [has_foldl_updateOnly, has_foldl_addOrUpdate, ite_self,
        foldl_jsMapDelete_nil]
      have hadded := has_filterMap_keyed_false
        (fun p => if ((m.set k v).delete k).deltaAdded.contains p.1
          then some (CounterDelta.mk p.2.delta) else none)
        ((m.set k v).delete k).currentValue k (map_set_delete_has m k v)
      rw [jsMapHas] at hadded
      rw [hadded]
      rfl
    · exact trivial

/-- C5 counterexample: a `ReplicatedCounterMap` delta is not idempotent:
applying the delta `{updated: [(k, change 1)]}` twice to a fresh map yields
counter value 2, applying it once yields 1. -/
theorem applyDelta_not_idempotent_counterexample :
    ((ReplicatedCounterMap.empty.applyDelta
        ⟨false, [], [("k", ⟨1⟩)]⟩).get "k" = some 1) ∧
    (((ReplicatedCounterMap.empty.applyDelta
        ⟨false, [], [("k", ⟨1⟩)]⟩).applyDelta
          ⟨false, [], [("k", ⟨1⟩)]⟩).get "k" = some 2) := by
  decide

/-- C5 (amended): for `ReplicatedSet`, `applyDelta` is idempotent: applying
the same delta twice leaves the membership identical to applying it once;
redundant removes and adds are ignored. (Counter-valued deltas are
additive, not idempotent, so the claim is restricted to the set.) -/
theorem set_applyDelta_idempotent (s : ReplicatedSet) (d : SetDelta)
    (e : String) :
    ((s.applyDelta d).applyDelta d).hasElem e = (s.applyDelta d).hasElem e := by
  rw [ReplicatedSet.hasElem, ReplicatedSet.hasElem]
  apply Bool.coe_iff_coe.mp
  rw [contains_iff, contains_iff]
  rw [mem_set_applyDelta, mem_set_applyDelta]
  by_cases hc : d.cleared = true
  · simp only [hc, if_pos rfl]
    tauto
  · have hc' : d.cleared = false := Bool.eq_false_iff.mpr hc
    simp only [hc', Bool.false_eq_true, if_false]
    rw [mem_set_applyDelta]
    simp only [hc', Bool.false_eq_true, if_false]
    tauto

/-- C6: deleting the single element of a one-element `ReplicatedSet` is
equivalent to `clear`: the set becomes empty and the next flush carries
`cleared = true` with empty added and removed lists. -/
theorem singleton_delete_is_clear (s : ReplicatedSet) (e : String)
    (h : s.currentValue = [e]) :
    (s.delete e).currentValue = [] ∧
    ((s.delete e).getAndResetDelta false).1 = some ⟨true, [], []⟩ := by
  have hc : s.currentValue.contains e = true := by
    rw [h, contains_iff]
    simp
  have hlen : s.currentValue.length = 1 := by rw [h]; rfl
  unfold ReplicatedSet.delete
  rw [if_pos hc, if_pos hlen]
  unfold ReplicatedSet.clear
  rw [if_pos (by rw [h]; simp)]
  exact ⟨rfl, by rw [set_flush_eq, if_pos (Or.inl rfl)]⟩

/-- C6 witness: the general theorem applied to the concrete one-element
set `{"a"}` with pending removal bookkeeping. -/
theorem singleton_delete_is_clear_witness :
    ((⟨["a"], [], ["b"], false⟩ : ReplicatedSet).delete "a").currentValue
        = [] ∧
    (((⟨["a"], [], ["b"], false⟩ : ReplicatedSet).delete
        "a").getAndResetDelta false).1 = some ⟨true, [], []⟩ :=
  singleton_delete_is_clear ⟨["a"], [], ["b"], false⟩ "a" rfl

/-- C7 counterexample: setting an existing key that was itself added within
the current flush window does not record it in the removed list: after
`set("k", c1); set("k", c2)` from fresh, the flushed delta has an empty
removed list (the claim requires "k" in it) while "k" is carried in the
added entries. -/
theorem map_set_existing_counterexample :
    ((ReplicatedMap.empty.set "k" ⟨0, 0⟩).has "k" = true) ∧
    (((ReplicatedMap.empty.set "k" ⟨0, 0⟩).set "k"
        ⟨5, 5⟩).getAndResetDelta false).1
      = some ⟨false, [], [("k", ⟨5⟩)], []⟩ := by
  decide

/-- C7 (amended): for a key that is present in the map and not pending in
`delta.added`, `set(key, newValue)` is remove-then-add: the new value
replaces the old one and the next flushed delta carries the key both in
its removed list and in its added entries; a key added within the current
flush window is carried in the added entries only. -/
theorem map_set_existing_remove_then_add (m : ReplicatedMap) (k : String)
    (v : ReplicatedCounter) (h1 : m.has k = true)
    (h2 : m.deltaAdded.contains k = false) :
    (m.set k v).get k = some v ∧
    (((m.set k v).getAndResetDelta false).1).elim False
      (fun d => d.removed.contains k = true ∧
        d.added.any (fun p => p.1 == k) = true) := by
  have h1' : jsMapHas m.currentValue k = true := h1
  have hset : m.set k v =
      ⟨jsMapSet m.currentValue k v, jsSetAdd m.deltaAdded k,
       jsSetAdd m.deltaRemoved k, m.deltaCleared⟩ := by
    unfold ReplicatedMap.set
    rw [if_pos h1', if_neg (by rw [h2]; exact Bool.false_ne_true)]
  rw [hset]
  constructor
  · exact jsMapGet_set_self m.currentValue k v
  · rw [map_flush_eq]
    rw [if_pos (Or.inr (Or.inl (jsSetAdd_ne_nil m.deltaRemoved k)))]
    simp only [Option.elim]
    refine ⟨jsSetAdd_contains_self m.deltaRemoved k, ?_⟩
    refine any_filterMap_keyed_true _ _ k (k, v) ?_ rfl ?_
    · exact List.mem_of_find?_eq_some (find?_jsMapSet_self m.currentValue k v)
    · simp only [jsSetAdd_contains_self]
      simp [contains_iff]

/-- C7 witness: the amended theorem applied at a concrete map holding "k"
with no pending additions. -/
theorem map_set_existing_remove_then_add_witness :
    ((⟨[("k", ⟨3, 0⟩)], [], [], false⟩ : ReplicatedMap).set "k"
        ⟨7, 7⟩).get "k" = some ⟨7, 7⟩ ∧
    ((((⟨[("k", ⟨3, 0⟩)], [], [], false⟩ : ReplicatedMap).set "k"
        ⟨7, 7⟩).getAndResetDelta false).1).elim False
      (fun d => d.removed.contains "k" = true ∧
        d.added.any (fun p => p.1 == "k") = true) :=
  map_set_existing_remove_then_add ⟨[("k", ⟨3, 0⟩)], [], [], false⟩ "k"
    ⟨7, 7⟩ (by decide) (by decide)

/-! ### Support for the multi-map claims -/

lemma jsMapHas_of_get_some {V : Type} {l : List (String × V)} {k : String}
    {v : V} (h : jsMapGet l k = some v) : jsMapHas l k = true := by
  unfold jsMapGet at h
  rcases Option.map_eq_some'.mp h with ⟨p, hp, _⟩
  rw [jsMapHas_iff]
  have hpm := List.mem_of_find?_eq_some hp
  have hpk := List.find?_some hp
  exact List.mem_map.mpr ⟨p, hpm, by simpa using hpk⟩

lemma set_add_ne_nil (s : ReplicatedSet) (v : String) :
    (s.add v).currentValue ≠ [] := by
  unfold ReplicatedSet.add
  split
  · rename_i h
    exact List.ne_nil_of_mem ((contains_iff _ _).mp h)
  · split
    · simp
    · simp

lemma foldl_add_ne_nil (vs : List String) (s : ReplicatedSet)
    (h : s.currentValue ≠ []) :
    (vs.foldl ReplicatedSet.add s).currentValue ≠ [] := by
  induction vs generalizing s with
  | nil => exact h
  | cons v vs ih =>
    rw [List.foldl_cons]
    exact ih _ (set_add_ne_nil s v)

lemma foldl_add_ne_nil_of_ne_nil (vs : List String) (hvs : vs ≠ [])
    (s : ReplicatedSet) :
    (vs.foldl ReplicatedSet.add s).currentValue ≠ [] := by
  cases vs with
  | nil => exact absurd rfl hvs
  | cons v vs =>
    rw [List.foldl_cons]
    exact foldl_add_ne_nil vs _ (set_add_ne_nil s v)

lemma mm_mutation_ne_nil (m : ReplicatedMultiMap) (mu : MultiMapMutation)
    (hwf : mu.nonEmptyPuts)
    (h : ∀ p ∈ m.entries, (p.2 : ReplicatedSet).currentValue ≠ []) :
    ∀ p ∈ (m.applyMutation mu).entries,
      (p.2 : ReplicatedSet).currentValue ≠ [] := by
  cases mu with
  | put k v =>
    show ∀ p ∈ (m.put k v).entries, _
    unfold ReplicatedMultiMap.put
    split
    · intro p hp
      have hp' : p ∈ jsMapUpdate m.entries k (fun s => s.add v) := hp
      rcases mem_jsMapUpdate hp' with h1 | ⟨q, hq, _, he⟩
      · exact h p h1
      · rw [he]
        exact set_add_ne_nil q.2 v
    · intro p hp
      have hp' : p ∈ m.entries ++ [(k, ReplicatedSet.empty.add v)] := hp
      rcases List.mem_append.mp hp' with h1 | h1
      · exact h p h1
      · simp only [List.mem_singleton] at h1
        rw [h1]
        exact set_add_ne_nil ReplicatedSet.empty v
  | putAll k vs =>
    have hvs : vs ≠ [] := hwf
    show ∀ p ∈ (m.putAll k vs).entries, _
    unfold ReplicatedMultiMap.putAll
    split
    · intro p hp
      have hp' : p ∈ jsMapUpdate m.entries k
          (fun s => vs.foldl ReplicatedSet.add s) := hp
      rcases mem_jsMapUpdate hp' with h1 | ⟨q, hq, _, he⟩
      · exact h p h1
      · rw [he]
        exact foldl_add_ne_nil vs q.2 (h q hq)
    · intro p hp
      have hp' : p ∈ m.entries ++
          [(k, vs.foldl ReplicatedSet.add ReplicatedSet.empty)] := hp
      rcases List.mem_append.mp hp' with h1 | h1
      · exact h p h1
      · simp only [List.mem_singleton] at h1
        rw [h1]
        exact foldl_add_ne_nil_of_ne_nil vs hvs ReplicatedSet.empty
  | delete k v =>
    show ∀ p ∈ (m.delete k v).entries, _
    unfold ReplicatedMultiMap.delete
    cases hget : jsMapGet m.entries k with
    | none =>
      simp only [hget]
      exact h
    | some st =>
      simp only [hget]
      split
      · unfold ReplicatedMultiMap.deleteAll
        split
        · intro p hp
          have hp' : p ∈ jsMapDelete
              (jsMapUpdate m.entries k (fun _ => st.delete v)) k := hp
          have hp2 := List.mem_of_mem_filter hp'
          rcases mem_jsMapUpdate hp2 with h1 | ⟨q, hq, hqk, he⟩
          · exact h p h1
          · rcases List.mem_filter.mp hp' with ⟨_, hpk⟩
            rw [he] at hpk
            simp only [bne_iff_ne, ne_eq] at hpk
            exact absurd hqk hpk
        · rename_i hno
          intro p hp
          exact absurd
            (by rw [jsMapHas_update]; exact jsMapHas_of_get_some hget) hno
      · rename_i hlen
        intro p hp
        have hp' : p ∈ jsMapUpdate m.entries k (fun _ => st.delete v) := hp
        rcases mem_jsMapUpdate hp' with h1 | ⟨q, hq, _, he⟩
        · exact h p h1
        · rw [he]
          intro hnil
          exact hlen (by rw [hnil]; rfl)
  | deleteAll k =>
    show ∀ p ∈ (m.deleteAll k).entries, _
    unfold ReplicatedMultiMap.deleteAll
    split
    · intro p hp
      exact h p (List.mem_of_mem_filter hp)
    · exact h
  | clear =>
    show ∀ p ∈ (m.clear).entries, _
    unfold ReplicatedMultiMap.clear
    split
    · intro p hp
      simp at hp
    · exact h

lemma mm_foldl_ne_nil (ms : List MultiMapMutation) (m : ReplicatedMultiMap)
    (hwf : ∀ mu ∈ ms, mu.nonEmptyPuts)
    (h : ∀ p ∈ m.entries, (p.2 : ReplicatedSet).currentValue ≠ []) :
    ∀ p ∈ (ms.foldl ReplicatedMultiMap.applyMutation m).entries,
      (p.2 : ReplicatedSet).currentValue ≠ [] := by
  induction ms generalizing m with
  | nil => exact h
  | cons mu ms ih =>
    rw [List.foldl_cons]
    exact ih (m.applyMutation mu) (fun x hx => hwf x (List.mem_cons_of_mem _ hx))
      (mm_mutation_ne_nil m mu (hwf mu (List.mem_cons_self mu ms)) h)

/-- C10 counterexample: `putAll("k", [])` on a fresh `ReplicatedMultiMap`
creates the key "k" with an empty value set, so a key reachable by user
mutations can map to an empty value set. -/
theorem multiMap_empty_putAll_counterexample :
    (ReplicatedMultiMap.empty.putAll "k" []).has "k" = true ∧
    (ReplicatedMultiMap.empty.putAll "k" []).get "k" = [] ∧
    (ReplicatedMultiMap.empty.putAll "k" []).keysSize = 1 := by
  decide

/-- C10 (amended): deleting the last remaining value of a key removes the
key entirely (membership gone, key count down by one, empty lookup, key
recorded in the next flushed delta's removed list); and no key reachable
by user mutations whose `putAll` calls all supply at least one value maps
to an empty value set (a `putAll` with an empty collection can create an
empty entry, which the original claim overlooked). -/
theorem multiMap_delete_last_value (m : ReplicatedMultiMap) (k v : String)
    (st : ReplicatedSet) (hget : jsMapGet m.entries k = some st)
    (hst : st.currentValue = [v]) (hnd : (m.entries.map Prod.fst).Nodup) :
    ((m.delete k v).has k = false ∧
     (m.delete k v).keysSize + 1 = m.keysSize ∧
     (m.delete k v).get k = [] ∧
     (((m.delete k v).getAndResetDelta false).1).elim False
       (fun d => d.removed.contains k = true)) ∧
    (∀ (ms : List MultiMapMutation), (∀ mu ∈ ms, mu.nonEmptyPuts) →
      ∀ p ∈ (ReplicatedMultiMap.applyMutations ms).entries,
        (p.2 : ReplicatedSet).currentValue ≠ []) := by
  have hsd : st.delete v = ⟨[], [], [], true⟩ := by
    unfold ReplicatedSet.delete ReplicatedSet.clear
    rw [if_pos (by rw [hst, contains_iff]; simp)]
    rw [if_pos (by rw [hst]; rfl)]
    rw [if_pos (by rw [hst]; simp)]
  have hdel : m.delete k v =
      ⟨jsMapDelete (jsMapUpdate m.entries k (fun _ => st.delete v)) k,
       jsSetAdd m.removed k, m.cleared⟩ := by
    unfold ReplicatedMultiMap.delete
    rw [hget]
    simp only [hsd]
    rw [if_pos (show List.length ([] : List String) = 0 from rfl)]
    unfold ReplicatedMultiMap.deleteAll
    rw [if_pos (by rw [jsMapHas_update]; exact jsMapHas_of_get_some hget)]
  constructor
  · rw [hdel]
    refine ⟨jsMapHas_delete_self _ k, ?_, ?_, ?_⟩
    · show (jsMapDelete (jsMapUpdate m.entries k (fun _ => st.delete v))
          k).length + 1 = m.entries.length
      rw [jsMapDelete_length _ k
        (by rw [jsMapUpdate_map_fst]; exact hnd)
        (by rw [jsMapHas_update]; exact jsMapHas_of_get_some hget)]
      exact List.length_map _ _
    · show ((jsMapGet (jsMapDelete
          (jsMapUpdate m.entries k (fun _ => st.delete v)) k) k).map
            (fun s => s.currentValue)).getD [] = []
      rw [jsMapGet_delete_self]
      rfl
    · rw [multiMap_flush_eq]
      rw [if_pos (Or.inr (Or.inl (jsSetAdd_ne_nil m.removed k)))]
      simp only [Option.elim]
      exact jsSetAdd_contains_self m.removed k
  · intro ms hwf
    exact mm_foldl_ne_nil ms ReplicatedMultiMap.empty hwf
      (by intro p hp; simp [ReplicatedMultiMap.empty] at hp)

/-- C10 witness: the amended theorem applied to a concrete one-entry
multi-map and the concrete mutation sequence `[put "k" "v"]`. -/
theorem multiMap_delete_last_value_witness :
    (((⟨[("k", ⟨["v"], [], [], false⟩)], [], false⟩ :
        ReplicatedMultiMap).delete "k" "v").has "k" = false ∧
     ((⟨[("k", ⟨["v"], [], [], false⟩)], [], false⟩ :
        ReplicatedMultiMap).delete "k" "v").keysSize + 1
       = (⟨[("k", ⟨["v"], [], [], false⟩)], [], false⟩ :
        ReplicatedMultiMap).keysSize ∧
     ((⟨[("k", ⟨["v"], [], [], false⟩)], [], false⟩ :
        ReplicatedMultiMap).delete "k" "v").get "k" = [] ∧
     ((((⟨[("k", ⟨["v"], [], [], false⟩)], [], false⟩ :
        ReplicatedMultiMap).delete "k" "v").getAndResetDelta false).1).elim
       False (fun d => d.removed.contains "k" = true)) ∧
    (∀ (ms : List MultiMapMutation), (∀ mu ∈ ms, mu.nonEmptyPuts) →
      ∀ p ∈ (ReplicatedMultiMap.applyMutations ms).entries,
        (p.2 : ReplicatedSet).currentValue ≠ []) :=
  multiMap_delete_last_value
    ⟨[("k", ⟨["v"], [], [], false⟩)], [], false⟩ "k" "v"
    ⟨["v"], [], [], false⟩ (by decide) rfl (by decide)

/-- C9 counterexample: at the spec's own concrete error-report scenario the
header line reads `Error reported from Kalix system: KLX-00112 test
message`, not `Kalix system reported error: KLX-00112 test message` as the
claim's header schema `<System> reported error: <code> <message>` requires. -/
theorem report_error_header_counterexample :
    ((reportErrorLogic "Kalix system" "KLX-00112" "test message"
        "test details" ⟨"package.test.json", 1, 3, 2, 5⟩
        ["first line",
         "  \"name\": \"some-name\",",
         "  \"version\": \"some-version\""]).data.takeWhile
        (fun c => c != '\n'))
      = "Error reported from Kalix system: KLX-00112 test message".data ∧
    ((reportErrorLogic "Kalix system" "KLX-00112" "test message"
        "test details" ⟨"package.test.json", 1, 3, 2, 5⟩
        ["first line",
         "  \"name\": \"some-name\",",
         "  \"version\": \"some-version\""]).data.takeWhile
        (fun c => c != '\n'))
      ≠ "Kalix system reported error: KLX-00112 test message".data := by
  decide

set_option maxRecDepth 8192 in
/-- C9 (amended): the error reporter produces a header line
`Error reported from <System>: <code> <message>`, a blank line, the detail
line, a `See documentation:` line with the link from the code-to-doc
table, a blank line, and an `At <file>:<line>:<col>:` block (line and
column one greater than the source values) quoting the two referenced
source lines — verified at the spec's concrete scenario. -/
theorem report_error_format :
    reportErrorLogic "Kalix system" "KLX-00112" "test message" "test details"
        ⟨"package.test.json", 1, 3, 2, 5⟩
        ["first line",
         "  \"name\": \"some-name\",",
         "  \"version\": \"some-version\""]
      = "Error reported from Kalix system: KLX-00112 test message\n\ntest details\nSee documentation: https://docs.kalix.io/javascript/views.html#changing\n\nAt package.test.json:2:4:\n  \"name\": \"some-name\",\n  \"version\": \"some-version\"" := by
  decide
